import Mathlib

/-!
Verification development for the BookVerse semantic-versioning resolver
(`libraries/bookverse-devops/scripts/semver_versioning.py`).

The Python module is shallowly embedded: pure helpers become Lean functions,
the HTTP transport becomes an explicit oracle argument (URL/request to
result), raised exceptions become `Except`/`Option` values, and the
sequence of registry requests a resolver issues is returned as an explicit
trace list.
-/

namespace BookVerse

/-! ## Python string primitives used by the module -/

/-- Whitespace characters removed by Python's `str.strip()` (ASCII subset). -/
def pySpace (c : Char) : Bool :=
  c = ' ' || c = '\t' || c = '\n' || c = '\r' || c = '\x0b' || c = '\x0c'

/-- Embeds `str.strip()` on a character list. -/
def stripList (cs : List Char) : List Char :=
  ((cs.dropWhile pySpace).reverse.dropWhile pySpace).reverse

/-- Embeds `str.strip()` on a string. -/
def pyStrip (s : String) : String := String.mk (stripList s.data)

/-- ASCII digit test, the `\d` of the module's regular expressions. -/
def isDigitCh (c : Char) : Bool := 48 ≤ c.toNat && c.toNat ≤ 57

/-- Split a character list on `'.'` (the shape test done by `SEMVER_RE`). -/
def splitDots : List Char → List (List Char)
  | [] => [[]]
  | c :: rest =>
    if c = '.' then [] :: splitDots rest
    else
      match splitDots rest with
      | g :: gs => (c :: g) :: gs
      | [] => [[c]]

/-- Numeric value of a digit string (`int()` on a `\d+` match). -/
def digitsVal (cs : List Char) : Nat :=
  cs.foldl (fun a c => 10 * a + (c.toNat - 48)) 0

/-- A nonempty all-digit character list (`\d+`). -/
def isDigits (cs : List Char) : Bool := !cs.isEmpty && cs.all isDigitCh

/-! ## SemVer model (`SEMVER_RE`, `parse_semver`, `bump_patch`, `max_semver`) -/

/-- Embeds `parse_semver`: match `^(\d+)\.(\d+)\.(\d+)$` against `v.strip()` and
return the integer components, or `none` when the regex does not match. -/
def parse_semver (v : String) : Option (Nat × Nat × Nat) :=
  match splitDots (stripList v.data) with
  | [a, b, c] =>
    if isDigits a && isDigits b && isDigits c then
      some (digitsVal a, digitsVal b, digitsVal c)
    else none
  | _ => none

/-- Decimal digit character for a value below ten. -/
def digitChar : Nat → Char
  | 0 => '0' | 1 => '1' | 2 => '2' | 3 => '3' | 4 => '4'
  | 5 => '5' | 6 => '6' | 7 => '7' | 8 => '8' | _ => '9'

/-- Decimal digits of `n`, least significant first, with explicit fuel so
that the definition is structurally recursive (kernel-reducible). -/
def natDigitsRevFuel : Nat → Nat → List Char
  | 0, _ => []
  | f + 1, n => if n = 0 then [] else digitChar (n % 10) :: natDigitsRevFuel f (n / 10)

/-- Decimal digits of `n`, least significant first. -/
def natDigitsRev (n : Nat) : List Char := natDigitsRevFuel n n

/-- Decimal rendering of a natural number (Python's `f"{n}"`). -/
def natToStr (n : Nat) : String :=
  if n = 0 then "0" else String.mk (natDigitsRev n).reverse

/-- The f-string `f"{p[0]}.{p[1]}.{p[2] + 1}"` rendering shape. -/
def verStr (a b c : Nat) : String :=
  natToStr a ++ "." ++ natToStr b ++ "." ++ natToStr c

/-- Embeds `bump_patch`: increment the patch component.  `none` models the
`ValueError("Not a SemVer X.Y.Z: ...")` raised on unparseable input. -/
def bump_patch (v : String) : Option String :=
  match parse_semver v with
  | none => none
  | some (a, b, c) => some (verStr a b (c + 1))

/-- Python tuple comparison `(a1,b1,c1) <= (a2,b2,c2)` (lexicographic). -/
def lexLe (x y : Nat × Nat × Nat) : Bool :=
  decide (x.1 < y.1) ||
    (decide (x.1 = y.1) &&
      (decide (x.2.1 < y.2.1) ||
        (decide (x.2.1 = y.2.1) && decide (x.2.2 ≤ y.2.2))))

/-- One step of the running maximum: on ties the later entry wins, which is
exactly what a stable ascending sort followed by taking the last element
produces. -/
def maxStep (acc : Option ((Nat × Nat × Nat) × String))
    (x : (Nat × Nat × Nat) × String) : Option ((Nat × Nat × Nat) × String) :=
  match acc with
  | none => some x
  | some a => if lexLe a.1 x.1 then some x else some a

/-- Embeds `max_semver`: pair every entry with its parse, drop failures, and return
the raw string whose parsed triple is greatest (the module sorts the kept
pairs by parsed key — Python's sort is stable — and takes the last one). -/
def max_semver (values : List String) : Option String :=
  let parsed :=
    (values.map (fun v => (parse_semver v, v))).filterMap
      (fun p => match p.1 with | some t => some (t, p.2) | none => none)
  (parsed.foldl maxStep none).map Prod.snd

/-- Boolean equality on `Except`, giving decidable equality of resolver
outcomes. -/
def exceptBeq {ε α : Type} [DecidableEq ε] [DecidableEq α] :
    Except ε α → Except ε α → Bool
  | .ok a, .ok b => decide (a = b)
  | .error e, .error f => decide (e = f)
  | _, _ => false

instance {ε α : Type} [DecidableEq ε] [DecidableEq α] : DecidableEq (Except ε α) :=
  fun a b =>
    decidable_of_iff (exceptBeq a b = true)
      (by cases a <;> cases b <;> simp [exceptBeq])

/-- The parsed/raw pairs `max_semver` keeps (named for the analysis). -/
def parsedPairs (values : List String) : List ((Nat × Nat × Nat) × String) :=
  (values.map (fun v => (parse_semver v, v))).filterMap
    (fun p => match p.1 with | some t => some (t, p.2) | none => none)

/-! ## JSON-like values and the Python dynamic semantics the module relies on -/

/-- A decoded response body (`json.loads` result, or a raw string). -/
inductive JVal where
  | jnull
  | jbool (b : Bool)
  | jnum (n : Int)
  | jstr (s : String)
  | jarr (xs : List JVal)
  | jobj (fields : List (String × JVal))

/-- Python truthiness of a decoded value. -/
def truthy : JVal → Bool
  | .jnull => false
  | .jbool b => b
  | .jnum n => decide (n ≠ 0)
  | .jstr s => decide (s ≠ "")
  | .jarr xs => !xs.isEmpty
  | .jobj fs => !fs.isEmpty

/-- Embeds `dict.get(k)` (default `None`). -/
def jget (fs : List (String × JVal)) (k : String) : JVal :=
  match fs.lookup k with
  | some v => v
  | none => .jnull

/-- Python `a or b`. -/
def pyOr (a b : JVal) : JVal := if truthy a then a else b

/-- Python `for x in v`: lists iterate elements, strings iterate their
characters, dicts iterate their keys; other values raise `TypeError`. -/
def pyIter : JVal → Except String (List JVal)
  | .jarr xs => .ok xs
  | .jstr s => .ok (s.data.map fun c => .jstr (String.mk [c]))
  | .jobj fs => .ok (fs.map fun p => .jstr p.1)
  | _ => .error "TypeError: object is not iterable"

/-- Python `len(v)` for sized values; `TypeError` otherwise. -/
def pyLen : JVal → Except String Nat
  | .jarr xs => .ok xs.length
  | .jstr s => .ok s.length
  | .jobj fs => .ok fs.length
  | _ => .error "TypeError: object has no len"

/-! ## Application version resolver (`compute_next_application_version`) -/

/-- The version-array probing `obj.get("versions") or obj.get("results") or
obj.get("items") or obj.get("data") or []` shared by both helpers. -/
def version_array_field (fs : List (String × JVal)) : JVal :=
  pyOr (jget fs "versions") (pyOr (jget fs "results")
    (pyOr (jget fs "items") (pyOr (jget fs "data") (.jarr []))))

/-- The nested `first_version` helper.  An `Except.error` marks the places
where the Python code would raise (indexing / `.get` on an unsuitable
value), which would escape `compute_next_application_version`. -/
def first_version (obj : JVal) : Except String (Option String) :=
  match obj with
  | .jobj fs =>
    let arr := version_array_field fs
    if truthy arr then
      match arr with
      | .jarr (x :: _) =>
        match pyOr x (.jobj []) with
        | .jobj fs' =>
          match pyOr (jget fs' "version") (jget fs' "name") with
          | .jstr s => .ok (some s)
          | _ => .ok none
        | _ => .error "AttributeError: no attribute get"
      | _ => .error "TypeError: value is not indexable"
    else .ok none
  | _ => .ok none

/-- Per-item step of the nested `extract_versions` helper:
`(it or {}).get("version") or (it or {}).get("name")`, kept when it is a
SemVer-parseable string. -/
def extract_item (it : JVal) : Except String (Option String) :=
  match pyOr it (.jobj []) with
  | .jobj fs' =>
    match pyOr (jget fs' "version") (jget fs' "name") with
    | .jstr s => .ok (if (parse_semver s).isSome then some s else none)
    | _ => .ok none
  | _ => .error "AttributeError: no attribute get"

/-- The `for it in arr or []` collection loop of `extract_versions`. -/
def extract_items : List JVal → Except String (List String)
  | [] => .ok []
  | it :: rest =>
    match extract_item it with
    | .error m => .error m
    | .ok r =>
      match extract_items rest with
      | .error m => .error m
      | .ok vs => .ok (match r with | some v => v :: vs | none => vs)

/-- The nested `extract_versions` helper. -/
def extract_versions (obj : JVal) : Except String (List String) :=
  match obj with
  | .jobj fs =>
    match pyIter (pyOr (version_array_field fs) (.jarr [])) with
    | .error m => .error m
    | .ok items => extract_items items
  | .jarr xs =>
    .ok (xs.filterMap fun x => match x with
      | .jstr s => if (parse_semver s).isSome then some s else none
      | _ => none)
  | _ => .ok []

/-- Outcome of one HTTP round-trip: `fail` models a raised transport
exception (with `str(e)` as its message), `ok` a decoded response. -/
inductive RegResult where
  | fail (msg : String)
  | ok (payload : JVal)

/-- The application resolver catches any query exception and proceeds with
`payload = {}`. -/
def payloadOf : RegResult → JVal
  | .fail _ => .jobj []
  | .ok p => p

/-- Embeds `str.rstrip("/")`. -/
def rstripSlash (s : String) : String :=
  String.mk ((s.data.reverse.dropWhile (fun c => c = '/')).reverse)

/-- Uppercase hexadecimal digit. -/
def hexDigitU (d : Nat) : Char :=
  if d < 10 then digitChar d
  else match d with
    | 10 => 'A' | 11 => 'B' | 12 => 'C' | 13 => 'D' | 14 => 'E' | _ => 'F'

/-- Characters `urllib.parse.quote` leaves unescaped (default `safe='/'`). -/
def quoteSafe (c : Char) : Bool :=
  c.isAlpha || c.isDigit || c = '_' || c = '.' || c = '-' || c = '~' || c = '/'

/-- Embeds `%XX` escape of one byte. -/
def percentByte (b : Nat) : List Char := ['%', hexDigitU (b / 16 % 16), hexDigitU (b % 16)]

/-- UTF-8 bytes of one character. -/
def utf8Bytes (c : Char) : List Nat :=
  let n := c.toNat
  if n < 128 then [n]
  else if n < 2048 then [192 + n / 64, 128 + n % 64]
  else if n < 65536 then [224 + n / 4096, 128 + n / 64 % 64, 128 + n % 64]
  else [240 + n / 262144, 128 + n / 4096 % 64, 128 + n / 64 % 64, 128 + n % 64]

/-- Embeds `urllib.parse.quote(s)`. -/
def pyQuote (s : String) : String :=
  String.mk ((s.data.map fun c =>
    if quoteSafe c then [c] else ((utf8Bytes c).map percentByte).flatten).flatten)

/-- Embeds `jfrog_url.rstrip("/") + "/apptrust/api/v1"`. -/
def apiBase (jfrog_url : String) : String := rstripSlash jfrog_url ++ "/apptrust/api/v1"

/-- URL of the first (most-recently-created) application-versions query. -/
def tier1_url (jfrog_url app_key : String) : String :=
  apiBase jfrog_url ++ "/applications/" ++ pyQuote app_key ++
    "/versions?limit=10&order_by=created&order_asc=false"

/-- URL of the second (up to 50 records) application-versions query. -/
def tier2_url (jfrog_url app_key : String) : String :=
  apiBase jfrog_url ++ "/applications/" ++ pyQuote app_key ++
    "/versions?limit=50&order_by=created&order_asc=false"

/-- One package declaration of the version map (`name` / `type` / `seed`). -/
structure PackageSpec where
  name : String
  type : String
  seed : Option String
deriving DecidableEq

/-- One application entry of the version map. -/
structure AppEntry where
  key : String
  seeds_application : Option String
  packages : List PackageSpec
deriving DecidableEq

/-- Embeds `find_app_entry`: first entry whose stripped key equals the requested
key; `none` models the empty dict returned when nothing matches. -/
def find_app_entry (vm : List AppEntry) (app_key : String) : Option AppEntry :=
  vm.find? fun it => pyStrip it.key == app_key

/-- Failure modes of the application resolver. -/
inductive AppError where
  | missingSeed      -- `SystemExit("No valid seed for application ...")`
  | uncaughtShape    -- an exception escaping the resolver on a malformed payload
deriving DecidableEq

/-- The seed fallback tier of `compute_next_application_version`. -/
def app_seed_fallback (app_key : String) (vm : List AppEntry) : Except AppError String :=
  match find_app_entry vm app_key with
  | none => .error .missingSeed
  | some entry =>
    match entry.seeds_application with
    | none => .error .missingSeed
    | some seed =>
      if seed = "" then .error .missingSeed
      else
        match parse_semver seed with
        | none => .error .missingSeed
        | some _ =>
          match bump_patch seed with
          | some r => .ok r
          | none => .error .uncaughtShape

/-- The second query tier of `compute_next_application_version`. -/
def app_tier2 (app_key : String) (vm : List AppEntry) (jfrog_url : String)
    (reg : String → RegResult) : Except AppError String :=
  match extract_versions (payloadOf (reg (tier2_url jfrog_url app_key))) with
  | .error _ => .error .uncaughtShape
  | .ok values =>
    match max_semver values with
    | some latest =>
      if latest = "" then app_seed_fallback app_key vm
      else
        match bump_patch latest with
        | some r => .ok r
        | none => .error .uncaughtShape
    | none => app_seed_fallback app_key vm

/-- Embeds `compute_next_application_version`, with the registry modelled as an
oracle from URL to query outcome.  Returns the resolution result together
with the list of URLs actually queried, in order. -/
def compute_next_application_version (app_key : String) (vm : List AppEntry)
    (jfrog_url : String) (reg : String → RegResult) :
    Except AppError String × List String :=
  match first_version (payloadOf (reg (tier1_url jfrog_url app_key))) with
  | .error _ => (.error .uncaughtShape, [tier1_url jfrog_url app_key])
  | .ok (some s) =>
    if (parse_semver s).isSome then
      match bump_patch s with
      | some r => (.ok r, [tier1_url jfrog_url app_key])
      | none => (.error .uncaughtShape, [tier1_url jfrog_url app_key])
    else
      (app_tier2 app_key vm jfrog_url reg,
        [tier1_url jfrog_url app_key, tier2_url jfrog_url app_key])
  | .ok none =>
    (app_tier2 app_key vm jfrog_url reg,
      [tier1_url jfrog_url app_key, tier2_url jfrog_url app_key])

/-! ## Regex searches used by the package adapters -/

/-- Embeds `List.span` on the ASCII digit class (a greedy `\d*`). -/
def spanDigits (cs : List Char) : List Char × List Char := cs.span isDigitCh

/-- Greedy match of `\d+\.\d+\.\d+` at the head of `cs`, returning matched
text and rest.  Greediness is unambiguous: a shorter `\d+` leaves a digit
in front, which can satisfy neither `\.` nor any follow-up the module
uses (`\.tgz`, `-`, `/`, end). -/
def matchTriple (cs : List Char) : Option (List Char × List Char) :=
  let (d1, r1) := spanDigits cs
  if d1.isEmpty then none
  else
    match r1 with
    | c1 :: r2 =>
      if c1 = '.' then
        let (d2, r3) := spanDigits r2
        if d2.isEmpty then none
        else
          match r3 with
          | c2 :: r4 =>
            if c2 = '.' then
              let (d3, r5) := spanDigits r4
              if d3.isEmpty then none
              else some (d1 ++ '.' :: d2 ++ '.' :: d3, r5)
            else none
          | [] => none
      else none
    | [] => none

/-- One anchor attempt of `re.search(r'-(\d+\.\d+\.\d+)\.tgz$', name)`.
Python's `$` matches at the end of the string or just before a single
newline that is the string's last character, so the rest after `.tgz` may
be empty or exactly one trailing `'\n'`. -/
def helmMatchAt (cs : List Char) : Option String :=
  match cs with
  | c :: rest =>
    if c = '-' then
      match matchTriple rest with
      | some (v, r) =>
        if r = ['.', 't', 'g', 'z'] || r = ['.', 't', 'g', 'z', '\n'] then
          some (String.mk v)
        else none
      | none => none
    else none
  | [] => none

/-- Embeds `re.search(r'-(\d+\.\d+\.\d+)\.tgz$', name)`: leftmost anchor wins. -/
def searchHelm : List Char → Option String
  | [] => none
  | c :: rest =>
    match helmMatchAt (c :: rest) with
    | some v => some v
    | none => searchHelm rest

/-- One anchor attempt of `re.search(r'/(\d+\.\d+\.\d+)(?:/|$)', path)`.
The `$` alternative holds at the end of the string or just before a single
newline that is the string's last character. -/
def genericMatchAt (cs : List Char) : Option String :=
  match cs with
  | c :: rest =>
    if c = '/' then
      match matchTriple rest with
      | some (v, r) =>
        match r with
        | [] => some (String.mk v)
        | c2 :: r2 =>
          if c2 = '/' then some (String.mk v)
          else if c2 = '\n' && r2.isEmpty then some (String.mk v)
          else none
      | none => none
    else none
  | [] => none

/-- Embeds `re.search(r'/(\d+\.\d+\.\d+)(?:/|$)', path)`. -/
def searchGeneric : List Char → Option String
  | [] => none
  | c :: rest =>
    match genericMatchAt (c :: rest) with
    | some v => some v
    | none => searchGeneric rest

/-- One anchor attempt of `re.search(r'-(\d+\.\d+\.\d+)-', name)`. -/
def pythonMatchAt (cs : List Char) : Option String :=
  match cs with
  | c :: rest =>
    if c = '-' then
      match matchTriple rest with
      | some (v, r) =>
        match r with
        | c2 :: _ => if c2 = '-' then some (String.mk v) else none
        | [] => none
      | none => none
    else none
  | [] => none

/-- Embeds `re.search(r'-(\d+\.\d+\.\d+)-', name)`. -/
def searchPython : List Char → Option String
  | [] => none
  | c :: rest =>
    match pythonMatchAt (c :: rest) with
    | some v => some v
    | none => searchPython rest

/-! ## Package tag resolver (`compute_next_package_tag`) -/

/-- One transport request issued by a package adapter. -/
inductive Request where
  | get (url : String)
  | post (url : String) (body : String)
deriving DecidableEq

/-- Prefix test on character lists. -/
def startsWithL : List Char → List Char → Bool
  | [], _ => true
  | _ :: _, [] => false
  | p :: ps, c :: cs => p = c && startsWithL ps cs

/-- Substring occurrence test on character lists. -/
def containsL (pat : List Char) : List Char → Bool
  | [] => pat.isEmpty
  | c :: cs => startsWithL pat (c :: cs) || containsL pat cs

/-- Python `needle in haystack` on strings. -/
def strContains (hay needle : String) : Bool := containsL needle.data hay.data

/-- Embeds `str.lower()` (ASCII). -/
def lowerStr (s : String) : String := String.mk (s.data.map Char.toLower)

/-- Docker block: `"404" in error_str or "NAME_UNKNOWN" in error_str`. -/
def docker_not_found (m : String) : Bool :=
  strContains m "404" || strContains m "NAME_UNKNOWN"

/-- Generic block: `"404" | "400" | "not found" (lowercased) | "NAME_UNKNOWN"`. -/
def generic_not_found (m : String) : Bool :=
  strContains m "404" || strContains m "400" ||
    strContains (lowerStr m) "not found" || strContains m "NAME_UNKNOWN"

/-- Helm block: `"400" | "404" | "not found" (lowercased)`. -/
def helm_not_found (m : String) : Bool :=
  strContains m "400" || strContains m "404" || strContains (lowerStr m) "not found"

/-- Python block: `"400" | "404" | "not found" (lowercased)`. -/
def python_not_found (m : String) : Bool :=
  strContains m "400" || strContains m "404" || strContains (lowerStr m) "not found"

/-- Embeds `app_key.replace("bookverse-", "")`. -/
def service_name_of (app_key : String) : String := String.replace app_key "bookverse-" ""

/-- Python `a or default` on an optional string flag. -/
def pyOrStr (a : Option String) (d : String) : String :=
  match a with
  | some s => if s = "" then d else s
  | none => d

/-- Embeds `f"{project_key or 'bookverse'}-{service_name}-internal-{ptype}-{repo_stage}-local"`. -/
def repo_key_for (project_key : Option String) (service_name ptype repo_stage : String) : String :=
  pyOrStr project_key "bookverse" ++ "-" ++ service_name ++ "-internal-" ++ ptype ++
    "-" ++ repo_stage ++ "-local"

/-- The docker tag-listing URL. -/
def docker_tags_url (jfrog_url repo_key package_name : String) : String :=
  rstripSlash jfrog_url ++ "/artifactory/api/docker/" ++ repo_key ++ "/v2/" ++
    package_name ++ "/tags/list"

/-- The AQL search endpoint URL. -/
def aql_url (jfrog_url : String) : String :=
  rstripSlash jfrog_url ++ "/artifactory/api/search/aql"

/-- The generic adapter's AQL body. -/
def generic_aql (repo_key : String) : String :=
  "items.find(\x7b\"repo\":\"" ++ repo_key ++
    "\",\"type\":\"file\"\x7d).include(\"name\",\"path\",\"actual_sha1\")"

/-- The helm adapter's AQL body. -/
def helm_aql (repo_key : String) : String :=
  "items.find(\x7b\"repo\":\"" ++ repo_key ++
    "\",\"type\":\"file\",\"name\":\x7b\"$match\":\"*.tgz\"\x7d\x7d).include(\"name\",\"path\")"

/-- The python adapter's AQL body. -/
def python_aql (repo_key : String) : String :=
  "items.find(\x7b\"repo\":\"" ++ repo_key ++
    "\",\"type\":\"file\",\"name\":\x7b\"$match\":\"*.whl\"\x7d\x7d).include(\"name\",\"path\")"

/-- Embeds `item.get(k, "")`: raises `AttributeError` when the item is not a dict. -/
def itemGetD (it : JVal) (k : String) : Except String JVal :=
  match it with
  | .jobj fs =>
    .ok (match fs.lookup k with | some v => v | none => .jstr "")
  | _ => .error "AttributeError: no attribute get"

/-- Embeds `re.search(pat, v)`: raises `TypeError` on a non-string operand. -/
def reSearch (f : List Char → Option String) (v : JVal) : Except String (Option String) :=
  match v with
  | .jstr s => .ok (f s.data)
  | _ => .error "TypeError: expected string or bytes-like object"

/-- Docker per-tag filter: `isinstance(tag, str) and parse_semver(tag)`. -/
def docker_tag_item (t : JVal) : Option String :=
  match t with
  | .jstr s => if (parse_semver s).isSome then some s else none
  | _ => none

/-- The docker block's candidate collection. -/
def run_docker (resp : RegResult) : Except String (List String) :=
  match resp with
  | .fail m => .error m
  | .ok p =>
    match p with
    | .jobj fs =>
      match fs.lookup "tags" with
      | some tv =>
        match pyIter tv with
        | .error m => .error m
        | .ok items => .ok (items.filterMap docker_tag_item)
      | none => .ok []
    | _ => .ok []

/-- Generic block, per item: fetch `path` and `name`, search the path for
`/X.Y.Z/` (or a trailing `/X.Y.Z`), keep it when SemVer-parseable. -/
def generic_item (it : JVal) : Except String (Option String) :=
  match itemGetD it "path" with
  | .error m => .error m
  | .ok pv =>
    match itemGetD it "name" with
    | .error m => .error m
    | .ok _ =>
      match reSearch searchGeneric pv with
      | .error m => .error m
      | .ok (some v) => .ok (if (parse_semver v).isSome then some v else none)
      | .ok none => .ok none

/-- Helm block, per item: fetch `name`, search for `-X.Y.Z.tgz` at its end,
keep it when SemVer-parseable. -/
def helm_item (it : JVal) : Except String (Option String) :=
  match itemGetD it "name" with
  | .error m => .error m
  | .ok nv =>
    match reSearch searchHelm nv with
    | .error m => .error m
    | .ok (some v) => .ok (if (parse_semver v).isSome then some v else none)
    | .ok none => .ok none

/-- Python block, per item: fetch `name`, search for `-X.Y.Z-`, keep it when
SemVer-parseable. -/
def python_item (it : JVal) : Except String (Option String) :=
  match itemGetD it "name" with
  | .error m => .error m
  | .ok nv =>
    match reSearch searchPython nv with
    | .error m => .error m
    | .ok (some v) => .ok (if (parse_semver v).isSome then some v else none)
    | .ok none => .ok none

/-- The `for item in resp.get("results", []): ... append` loop. -/
def collectItems (ex : JVal → Except String (Option String)) :
    List JVal → Except String (List String)
  | [] => .ok []
  | it :: rest =>
    match ex it with
    | .error m => .error m
    | .ok r =>
      match collectItems ex rest with
      | .error m => .error m
      | .ok vs => .ok (match r with | some v => v :: vs | none => vs)

/-- Embeds `isinstance(resp, dict) and "results" in resp` guarded iteration over a
decoded AQL payload. -/
def run_aql_payload (ex : JVal → Except String (Option String)) (p : JVal) :
    Except String (List String) :=
  match p with
  | .jobj fs =>
    match fs.lookup "results" with
    | some rv =>
      match pyIter rv with
      | .error m => .error m
      | .ok items => collectItems ex items
    | none => .ok []
  | _ => .ok []

/-- Generic/helm blocks: one POST, then collect over `results`. -/
def run_aql_results (ex : JVal → Except String (Option String)) (resp : RegResult) :
    Except String (List String) :=
  match resp with
  | .fail m => .error m
  | .ok p => run_aql_payload ex p

/-- Embeds `isinstance(resp, dict) and "results" in resp and len(resp.get("results", [])) > 0`. -/
def python_check (p : JVal) : Except String Bool :=
  match p with
  | .jobj fs =>
    match fs.lookup "results" with
    | some rv =>
      match pyLen rv with
      | .error m => .error m
      | .ok n => .ok (decide (n > 0))
    | none => .ok false
  | _ => .ok false

/-- Python/pypi block: try the pypi-style repo key, then the python-style
one; the first response with a nonempty `results` wins (`break`). -/
def run_python (aurl pypi_rk python_rk : String) (reg : Request → RegResult) :
    Except String (List String) × List Request :=
  match reg (.post aurl (python_aql pypi_rk)) with
  | .fail m => (.error m, [.post aurl (python_aql pypi_rk)])
  | .ok p1 =>
    match python_check p1 with
    | .error m => (.error m, [.post aurl (python_aql pypi_rk)])
    | .ok true => (run_aql_payload python_item p1, [.post aurl (python_aql pypi_rk)])
    | .ok false =>
      match reg (.post aurl (python_aql python_rk)) with
      | .fail m =>
        (.error m, [.post aurl (python_aql pypi_rk), .post aurl (python_aql python_rk)])
      | .ok p2 =>
        match python_check p2 with
        | .error m =>
          (.error m, [.post aurl (python_aql pypi_rk), .post aurl (python_aql python_rk)])
        | .ok true =>
          (run_aql_payload python_item p2,
            [.post aurl (python_aql pypi_rk), .post aurl (python_aql python_rk)])
        | .ok false =>
          (.ok [], [.post aurl (python_aql pypi_rk), .post aurl (python_aql python_rk)])

/-- Outcome of one adapter block after its `except` handler ran. -/
inductive AdapterOutcome where
  | cands (vs : List String)
  | fatal
deriving DecidableEq

/-- The per-adapter `except` policy: a "not found"-style failure keeps the
empty candidate list, anything else is `sys.exit(1)`. -/
def classify (isNF : String → Bool) : Except String (List String) → AdapterOutcome
  | .ok vs => .cands vs
  | .error m => if isNF m then .cands [] else .fatal

/-- The docker tag-listing request for one package. -/
def docker_request (app_key package_name jfrog_url : String)
    (project_key : Option String) (repo_stage : String) : Request :=
  .get (docker_tags_url jfrog_url
    (repo_key_for project_key (service_name_of app_key) "docker" repo_stage)
    package_name)

/-- The generic adapter's AQL request for one package. -/
def generic_request (app_key jfrog_url : String)
    (project_key : Option String) (repo_stage : String) : Request :=
  .post (aql_url jfrog_url)
    (generic_aql (repo_key_for project_key (service_name_of app_key) "generic" repo_stage))

/-- The helm adapter's AQL request for one package. -/
def helm_request (app_key jfrog_url : String)
    (project_key : Option String) (repo_stage : String) : Request :=
  .post (aql_url jfrog_url)
    (helm_aql (repo_key_for project_key (service_name_of app_key) "helm" repo_stage))

/-- The `if package_type == ...` dispatch, returning the adapter outcome and
the requests actually issued. -/
def adapter_dispatch (app_key package_name ptype jfrog_url : String)
    (project_key : Option String) (repo_stage : String)
    (reg : Request → RegResult) : AdapterOutcome × List Request :=
  if ptype = "docker" then
    (classify docker_not_found
        (run_docker (reg (docker_request app_key package_name jfrog_url project_key repo_stage))),
      [docker_request app_key package_name jfrog_url project_key repo_stage])
  else if ptype = "generic" then
    (classify generic_not_found
        (run_aql_results generic_item (reg (generic_request app_key jfrog_url project_key repo_stage))),
      [generic_request app_key jfrog_url project_key repo_stage])
  else if ptype = "helm" then
    (classify helm_not_found
        (run_aql_results helm_item (reg (helm_request app_key jfrog_url project_key repo_stage))),
      [helm_request app_key jfrog_url project_key repo_stage])
  else if ptype = "python" || ptype = "pypi" then
    (classify python_not_found
        (run_python (aql_url jfrog_url)
          (repo_key_for project_key (service_name_of app_key) "pypi" repo_stage)
          (repo_key_for project_key (service_name_of app_key) "python" repo_stage) reg).1,
      (run_python (aql_url jfrog_url)
        (repo_key_for project_key (service_name_of app_key) "pypi" repo_stage)
        (repo_key_for project_key (service_name_of app_key) "python" repo_stage) reg).2)
  else (.cands [], [])

/-- Failure modes of the package resolver. -/
inductive PkgError where
  | packageNotFound   -- `SystemExit("Package ... not found in version map ...")`
  | missingSeed       -- `SystemExit("No valid seed for package ...")`
  | fatalRegistry     -- `sys.exit(1)` on a non-"not found" query failure
  | uncaughtValue     -- unreachable `ValueError` from `bump_patch`
deriving DecidableEq

/-- Package lookup: the `for it in (entry.get("packages") or [])` scan. -/
def find_package (vm : List AppEntry) (app_key package_name : String) : Option PackageSpec :=
  (match find_app_entry vm app_key with
   | some e => e.packages
   | none => []).find? fun it => pyStrip it.name == package_name

/-- Embeds `return bump_patch(str(seed))` (the seed is already validated). -/
def seed_bump (seedv : String) : Except PkgError String :=
  match bump_patch seedv with
  | some r => .ok r
  | none => .error .uncaughtValue

/-- The closing lines of `compute_next_package_tag`: prefer
`bump_patch(max_semver(existing_versions))`, fall back to the seed. -/
def finish_tag (seedv : String) : AdapterOutcome → Except PkgError String
  | .fatal => .error .fatalRegistry
  | .cands existing =>
    match existing with
    | [] => seed_bump seedv
    | _ :: _ =>
      match max_semver existing with
      | some latest =>
        if latest = "" then seed_bump seedv
        else
          match bump_patch latest with
          | some r => .ok r
          | none => .error .uncaughtValue
      | none => seed_bump seedv

/-- Embeds `compute_next_package_tag`, with the registry modelled as an oracle from
request to outcome.  Returns the result with the issued request trace. -/
def compute_next_package_tag (app_key package_name : String) (vm : List AppEntry)
    (jfrog_url : String) (project_key : Option String) (repo_stage : String)
    (reg : Request → RegResult) : Except PkgError String × List Request :=
  match find_package vm app_key package_name with
  | none => (.error .packageNotFound, [])
  | some pkg =>
    match pkg.seed with
    | none => (.error .missingSeed, [])
    | some seedv =>
      if seedv = "" then (.error .missingSeed, [])
      else
        match parse_semver seedv with
        | none => (.error .missingSeed, [])
        | some _ =>
          (finish_tag seedv
              (adapter_dispatch app_key package_name pkg.type jfrog_url project_key
                repo_stage reg).1,
            (adapter_dispatch app_key package_name pkg.type jfrog_url project_key
              repo_stage reg).2)

/-- The "not found"-style classification the adapter for `ptype` applies to
a query failure message (each branch is that adapter's `except` test). -/
def not_found_for (ptype msg : String) : Bool :=
  if ptype = "docker" then docker_not_found msg
  else if ptype = "generic" then generic_not_found msg
  else if ptype = "helm" then helm_not_found msg
  else if ptype = "python" || ptype = "pypi" then python_not_found msg
  else false

/-- Join character-list groups with `'.'` (left inverse of `splitDots`). -/
def joinDots : List (List Char) → List Char
  | [] => []
  | [g] => g
  | g :: gs => g ++ '.' :: joinDots gs

/-! ## Order facts about `lexLe` -/

theorem lexLe_iff (x y : Nat × Nat × Nat) :
    lexLe x y = true ↔
      x.1 < y.1 ∨ (x.1 = y.1 ∧ (x.2.1 < y.2.1 ∨ (x.2.1 = y.2.1 ∧ x.2.2 ≤ y.2.2))) := by
  simp [lexLe]

theorem lexLe_refl (x : Nat × Nat × Nat) : lexLe x x = true := by
  simp [lexLe_iff]

theorem lexLe_total (x y : Nat × Nat × Nat) :
    lexLe x y = true ∨ lexLe y x = true := by
  simp only [lexLe_iff]
  omega

theorem lexLe_trans {x y z : Nat × Nat × Nat}
    (h1 : lexLe x y = true) (h2 : lexLe y z = true) : lexLe x z = true := by
  simp only [lexLe_iff] at h1 h2 ⊢
  omega

/-! ## The decimal printer and its round trip through `parse_semver` -/

theorem natDigitsRevFuel_congr : ∀ n f g, n ≤ f → n ≤ g →
    natDigitsRevFuel f n = natDigitsRevFuel g n := by
  intro n
  induction n using Nat.strong_induction_on with
  | _ n ih =>
    intro f g hf hg
    match n, f, g, hf, hg with
    | 0, 0, 0, _, _ => rfl
    | 0, 0, g + 1, _, _ => simp [natDigitsRevFuel]
    | 0, f + 1, 0, _, _ => simp [natDigitsRevFuel]
    | 0, f + 1, g + 1, _, _ => simp [natDigitsRevFuel]
    | m + 1, f + 1, g + 1, hf, hg =>
      have hdiv : (m + 1) / 10 < m + 1 := Nat.div_lt_self (Nat.succ_pos m) (by decide)
      have h1 : natDigitsRevFuel (f + 1) (m + 1) =
          digitChar ((m + 1) % 10) :: natDigitsRevFuel f ((m + 1) / 10) := by
        simp [natDigitsRevFuel]
      have h2 : natDigitsRevFuel (g + 1) (m + 1) =
          digitChar ((m + 1) % 10) :: natDigitsRevFuel g ((m + 1) / 10) := by
        simp [natDigitsRevFuel]
      rw [h1, h2, ih ((m + 1) / 10) hdiv f g (by omega) (by omega)]

theorem natDigitsRev_succ {n : Nat} (h : n ≠ 0) :
    natDigitsRev n = digitChar (n % 10) :: natDigitsRev (n / 10) := by
  match n, h with
  | m + 1, _ =>
    show natDigitsRevFuel (m + 1) (m + 1) = _
    have hdiv : (m + 1) / 10 < m + 1 := Nat.div_lt_self (Nat.succ_pos m) (by decide)
    have h1 : natDigitsRevFuel (m + 1) (m + 1) =
        digitChar ((m + 1) % 10) :: natDigitsRevFuel m ((m + 1) / 10) := by
      simp [natDigitsRevFuel]
    rw [h1, natDigitsRevFuel_congr ((m + 1) / 10) m ((m + 1) / 10) (by omega) (by omega)]
    rfl

theorem digitChar_toNat {d : Nat} (h : d < 10) : (digitChar d).toNat = 48 + d := by
  interval_cases d <;> decide

theorem digitChar_isDigit {d : Nat} (h : d < 10) : isDigitCh (digitChar d) = true := by
  interval_cases d <;> decide

theorem digitChar_not_space {d : Nat} (h : d < 10) : pySpace (digitChar d) = false := by
  interval_cases d <;> decide

theorem digitChar_ne_dot {d : Nat} (h : d < 10) : digitChar d ≠ '.' := by
  interval_cases d <;> decide

theorem natDigitsRev_mem {n : Nat} :
    ∀ c ∈ natDigitsRev n, ∃ d, d < 10 ∧ c = digitChar d := by
  induction n using Nat.strong_induction_on with
  | _ n ih =>
    intro c hc
    by_cases h : n = 0
    · subst h; simp [natDigitsRev, natDigitsRevFuel] at hc
    · rw [natDigitsRev_succ h] at hc
      rcases List.mem_cons.mp hc with hc | hc
      · exact ⟨n % 10, Nat.mod_lt n (by decide), hc⟩
      · exact ih (n / 10) (Nat.div_lt_self (Nat.pos_of_ne_zero h) (by decide)) c hc

theorem digitsVal_append_one (xs : List Char) (c : Char) :
    digitsVal (xs ++ [c]) = 10 * digitsVal xs + (c.toNat - 48) := by
  simp [digitsVal, List.foldl_append]

theorem digitsVal_natDigitsRev (n : Nat) :
    digitsVal (natDigitsRev n).reverse = n := by
  induction n using Nat.strong_induction_on with
  | _ n ih =>
    by_cases h : n = 0
    · subst h; rfl
    · rw [natDigitsRev_succ h, List.reverse_cons, digitsVal_append_one,
        ih (n / 10) (Nat.div_lt_self (Nat.pos_of_ne_zero h) (by decide)),
        digitChar_toNat (Nat.mod_lt _ (by decide))]
      omega

theorem natToStr_data {n : Nat} (h : n ≠ 0) :
    (natToStr n).data = (natDigitsRev n).reverse := by
  simp [natToStr, h]

theorem natToStr_ne_nil (n : Nat) : (natToStr n).data ≠ [] := by
  by_cases h : n = 0
  · subst h; decide
  · rw [natToStr_data h]
    rw [natDigitsRev_succ h]
    simp

theorem natToStr_all_digits (n : Nat) :
    ∀ c ∈ (natToStr n).data, isDigitCh c = true := by
  by_cases h : n = 0
  · subst h; decide
  · rw [natToStr_data h]
    intro c hc
    obtain ⟨d, hd, hcd⟩ := natDigitsRev_mem c (List.mem_reverse.mp hc)
    exact hcd ▸ digitChar_isDigit hd

theorem natToStr_digitsVal (n : Nat) : digitsVal (natToStr n).data = n := by
  by_cases h : n = 0
  · subst h; decide
  · rw [natToStr_data h]
    exact digitsVal_natDigitsRev n

theorem digit_not_space {c : Char} (h : isDigitCh c = true) : pySpace c = false := by
  cases hpc : pySpace c
  · rfl
  · exfalso
    simp only [pySpace, Bool.or_eq_true, decide_eq_true_eq] at hpc
    simp only [isDigitCh, Bool.and_eq_true, decide_eq_true_eq] at h
    rcases hpc with ((((h1 | h1) | h1) | h1) | h1) | h1 <;> subst h1 <;>
      revert h <;> decide

theorem digit_ne_dot {c : Char} (h : isDigitCh c = true) : c ≠ '.' := by
  intro heq
  subst heq
  simp [isDigitCh] at h

theorem natToStr_isDigits (n : Nat) : isDigits (natToStr n).data = true := by
  have h1 := natToStr_ne_nil n
  have h2 := natToStr_all_digits n
  simp [isDigits, List.isEmpty_iff, h1]
  intro c hc
  exact h2 c hc

theorem dropWhile_all_false {p : Char → Bool} {cs : List Char}
    (h : ∀ c ∈ cs, p c = false) : cs.dropWhile p = cs := by
  cases cs with
  | nil => rfl
  | cons c rest => simp [List.dropWhile_cons, h c (List.mem_cons_self _ _)]

theorem stripList_id {cs : List Char} (h : ∀ c ∈ cs, pySpace c = false) :
    stripList cs = cs := by
  unfold stripList
  rw [dropWhile_all_false h,
    dropWhile_all_false (fun c hc => h c (List.mem_reverse.mp hc)),
    List.reverse_reverse]

theorem splitDots_no_dot : ∀ (xs : List Char), '.' ∉ xs → splitDots xs = [xs] := by
  intro xs
  induction xs with
  | nil => intro _; rfl
  | cons c rest ih =>
    intro h
    have hc : ¬(c = '.') := fun hh => h (hh ▸ List.mem_cons_self _ _)
    have hrest : '.' ∉ rest := fun hh => h (List.mem_cons_of_mem _ hh)
    simp [splitDots, hc, ih hrest]

theorem splitDots_append : ∀ (xs : List Char), '.' ∉ xs → ∀ (ys : List Char),
    splitDots (xs ++ '.' :: ys) = xs :: splitDots ys := by
  intro xs
  induction xs with
  | nil => intro _ ys; simp [splitDots]
  | cons c rest ih =>
    intro h ys
    have hc : ¬(c = '.') := fun hh => h (hh ▸ List.mem_cons_self _ _)
    have hrest : '.' ∉ rest := fun hh => h (List.mem_cons_of_mem _ hh)
    simp [splitDots, hc, ih hrest]

theorem splitDots_ne_nil : ∀ (cs : List Char), splitDots cs ≠ [] := by
  intro cs
  cases cs with
  | nil => simp [splitDots]
  | cons c rest =>
    by_cases hc : c = '.'
    · subst hc; simp [splitDots]
    · cases hs : splitDots rest with
      | nil => simp [splitDots, hc, hs]
      | cons g gs => simp [splitDots, hc, hs]

theorem joinDots_cons (g : List Char) {gs : List (List Char)} (h : gs ≠ []) :
    joinDots (g :: gs) = g ++ '.' :: joinDots gs := by
  cases gs with
  | nil => exact absurd rfl h
  | cons g' gs' => rfl

theorem joinDots_splitDots : ∀ (cs : List Char), joinDots (splitDots cs) = cs := by
  intro cs
  induction cs with
  | nil => rfl
  | cons c rest ih =>
    by_cases hc : c = '.'
    · subst hc
      have hs : splitDots ('.' :: rest) = [] :: splitDots rest := by
        simp [splitDots]
      rw [hs, joinDots_cons [] (splitDots_ne_nil rest), ih]
      rfl
    · cases hs : splitDots rest with
      | nil => exact absurd hs (splitDots_ne_nil rest)
      | cons g gs =>
        have hs2 : splitDots (c :: rest) = (c :: g) :: gs := by
          simp [splitDots, hc, hs]
        rw [hs2]
        rw [hs] at ih
        cases gs with
        | nil =>
          simp only [joinDots] at ih ⊢
          rw [ih]
        | cons g' gs' =>
          rw [joinDots_cons (c :: g) (List.cons_ne_nil _ _)]
          rw [joinDots_cons g (List.cons_ne_nil _ _)] at ih
          rw [← ih]
          simp

theorem splitDots_parts_no_dot : ∀ (cs : List Char), ∀ g ∈ splitDots cs, '.' ∉ g := by
  intro cs
  induction cs with
  | nil =>
    intro g hg
    simp [splitDots] at hg
    subst hg
    simp
  | cons c rest ih =>
    intro g hg
    by_cases hc : c = '.'
    · subst hc
      rw [show splitDots ('.' :: rest) = [] :: splitDots rest from by simp [splitDots]] at hg
      rcases List.mem_cons.mp hg with h1 | h1
      · subst h1; simp
      · exact ih g h1
    · cases hs : splitDots rest with
      | nil => exact absurd hs (splitDots_ne_nil rest)
      | cons g0 gs =>
        rw [show splitDots (c :: rest) = (c :: g0) :: gs from by simp [splitDots, hc, hs]] at hg
        rcases List.mem_cons.mp hg with h1 | h1
        · subst h1
          intro hmem
          rcases List.mem_cons.mp hmem with h2 | h2
          · exact hc h2.symm
          · exact ih g0 (hs ▸ List.mem_cons_self _ _) h2
        · exact ih g (hs ▸ List.mem_cons_of_mem _ h1)

theorem verStr_data (a b c : Nat) :
    (verStr a b c).data =
      (natToStr a).data ++ '.' :: ((natToStr b).data ++ '.' :: (natToStr c).data) := by
  simp [verStr]

theorem parse_verStr (a b c : Nat) : parse_semver (verStr a b c) = some (a, b, c) := by
  have hA := natToStr_all_digits a
  have hB := natToStr_all_digits b
  have hC := natToStr_all_digits c
  have hspace : ∀ ch ∈ (verStr a b c).data, pySpace ch = false := by
    rw [verStr_data]
    intro ch hch
    rcases List.mem_append.mp hch with h1 | h1
    · exact digit_not_space (hA ch h1)
    · rcases List.mem_cons.mp h1 with h2 | h2
      · subst h2; decide
      · rcases List.mem_append.mp h2 with h3 | h3
        · exact digit_not_space (hB ch h3)
        · rcases List.mem_cons.mp h3 with h4 | h4
          · subst h4; decide
          · exact digit_not_space (hC ch h4)
  have hsplit : splitDots (stripList (verStr a b c).data) =
      [(natToStr a).data, (natToStr b).data, (natToStr c).data] := by
    rw [stripList_id hspace, verStr_data,
      splitDots_append _ (fun hm => digit_ne_dot (hA '.' hm) rfl) _,
      splitDots_append _ (fun hm => digit_ne_dot (hB '.' hm) rfl) _,
      splitDots_no_dot _ (fun hm => digit_ne_dot (hC '.' hm) rfl)]
  simp [parse_semver, hsplit, natToStr_isDigits, natToStr_digitsVal]

theorem bump_patch_of_parse {s : String} {a b c : Nat}
    (h : parse_semver s = some (a, b, c)) :
    bump_patch s = some (verStr a b (c + 1)) := by
  simp [bump_patch, h]

theorem bump_patch_none {s : String} (h : parse_semver s = none) :
    bump_patch s = none := by
  simp [bump_patch, h]

/-! ## Facts about `max_semver` -/

theorem max_semver_eq (values : List String) :
    max_semver values = ((parsedPairs values).foldl maxStep none).map Prod.snd := rfl

theorem mem_parsedPairs {values : List String} {q : (Nat × Nat × Nat) × String} :
    q ∈ parsedPairs values ↔ q.2 ∈ values ∧ parse_semver q.2 = some q.1 := by
  constructor
  · intro h
    obtain ⟨p, hp, hfp⟩ := List.mem_filterMap.mp h
    obtain ⟨v, hv, hgv⟩ := List.mem_map.mp hp
    subst hgv
    cases hpv : parse_semver v with
    | none => simp [hpv] at hfp
    | some t =>
      simp only [hpv] at hfp
      cases hfp
      exact ⟨hv, hpv⟩
  · rintro ⟨hv, hq⟩
    apply List.mem_filterMap.mpr
    refine ⟨(parse_semver q.2, q.2), List.mem_map.mpr ⟨q.2, hv, rfl⟩, ?_⟩
    simp [hq]

theorem maxStep_some (acc : Option ((Nat × Nat × Nat) × String)) (x) :
    ∃ p, maxStep acc x = some p := by
  cases acc with
  | none => exact ⟨x, rfl⟩
  | some a =>
    by_cases h : lexLe a.1 x.1 = true
    · exact ⟨x, by simp [maxStep, h]⟩
    · exact ⟨a, by simp [maxStep, h]⟩

theorem foldl_maxStep_ne_none :
    ∀ (l : List ((Nat × Nat × Nat) × String)) (a : (Nat × Nat × Nat) × String),
      l.foldl maxStep (some a) ≠ none := by
  intro l
  induction l with
  | nil => intro a h; cases h
  | cons x xs ih =>
    intro a
    obtain ⟨p, hp⟩ := maxStep_some (some a) x
    simpa [List.foldl_cons, hp] using ih p

theorem foldl_maxStep_none_iff (l : List ((Nat × Nat × Nat) × String)) :
    l.foldl maxStep none = none ↔ l = [] := by
  cases l with
  | nil => simp
  | cons x xs =>
    simp only [List.foldl_cons]
    constructor
    · intro h
      exact absurd h (by simpa [maxStep] using foldl_maxStep_ne_none xs x)
    · intro h; cases h

theorem foldl_maxStep_mem :
    ∀ (l : List ((Nat × Nat × Nat) × String)) (acc p),
      l.foldl maxStep acc = some p → acc = some p ∨ p ∈ l := by
  intro l
  induction l with
  | nil => intro acc p h; exact Or.inl h
  | cons x xs ih =>
    intro acc p h
    rcases ih (maxStep acc x) p h with h1 | h1
    · cases acc with
      | none =>
        simp only [maxStep] at h1
        cases h1
        exact Or.inr (List.mem_cons_self _ _)
      | some a =>
        by_cases hle : lexLe a.1 x.1 = true
        · simp only [maxStep, hle, if_true] at h1
          cases h1
          exact Or.inr (List.mem_cons_self _ _)
        · simp only [maxStep, hle, if_false] at h1
          exact Or.inl h1
    · exact Or.inr (List.mem_cons_of_mem _ h1)

theorem foldl_maxStep_bound :
    ∀ (l : List ((Nat × Nat × Nat) × String)) (acc p),
      l.foldl maxStep acc = some p →
        (∀ a, acc = some a → lexLe a.1 p.1 = true) ∧
          (∀ q ∈ l, lexLe q.1 p.1 = true) := by
  intro l
  induction l with
  | nil =>
    intro acc p h
    refine ⟨?_, by simp⟩
    intro a ha
    rw [ha] at h
    cases h
    exact lexLe_refl _
  | cons x xs ih =>
    intro acc p h
    obtain ⟨hstep, hxs⟩ := ih (maxStep acc x) p h
    have hx : lexLe x.1 p.1 = true := by
      cases acc with
      | none => exact hstep x rfl
      | some a =>
        by_cases hle : lexLe a.1 x.1 = true
        · exact hstep x (by simp [maxStep, hle])
        · have hxa : lexLe x.1 a.1 = true :=
            (lexLe_total x.1 a.1).resolve_right (by simpa using hle)
          exact lexLe_trans hxa (hstep a (by simp [maxStep, hle]))
    refine ⟨?_, ?_⟩
    · intro a ha
      subst ha
      by_cases hle : lexLe a.1 x.1 = true
      · exact lexLe_trans hle (hstep x (by simp [maxStep, hle]))
      · exact hstep a (by simp [maxStep, hle])
    · intro q hq
      rcases List.mem_cons.mp hq with h1 | h1
      · subst h1; exact hx
      · exact hxs q h1

theorem max_semver_none_iff (values : List String) :
    max_semver values = none ↔ ∀ v ∈ values, parse_semver v = none := by
  rw [max_semver_eq]
  constructor
  · intro h v hv
    have hfold : (parsedPairs values).foldl maxStep none = none := by
      cases hf : (parsedPairs values).foldl maxStep none with
      | none => rfl
      | some p => simp [hf] at h
    have hnil : parsedPairs values = [] := (foldl_maxStep_none_iff _).mp hfold
    cases hpv : parse_semver v with
    | none => rfl
    | some t =>
      have : ((t, v) : (Nat × Nat × Nat) × String) ∈ parsedPairs values :=
        mem_parsedPairs.mpr ⟨hv, hpv⟩
      rw [hnil] at this
      cases this
  · intro h
    have hnil : parsedPairs values = [] := by
      cases hp : parsedPairs values with
      | nil => rfl
      | cons q qs =>
        have hq : q ∈ parsedPairs values := hp ▸ List.mem_cons_self _ _
        obtain ⟨hv, hparse⟩ := mem_parsedPairs.mp hq
        rw [h q.2 hv] at hparse
        cases hparse
    rw [hnil]
    rfl

theorem max_semver_spec {values : List String} {m : String}
    (h : max_semver values = some m) :
    m ∈ values ∧ ∃ tm, parse_semver m = some tm ∧
      ∀ v t, v ∈ values → parse_semver v = some t → lexLe t tm = true := by
  rw [max_semver_eq] at h
  cases hf : (parsedPairs values).foldl maxStep none with
  | none => rw [hf] at h; cases h
  | some p =>
    rw [hf] at h
    have hm : p.2 = m := by simpa using h
    have hmem : p ∈ parsedPairs values := by
      rcases foldl_maxStep_mem _ none p hf with h1 | h1
      · cases h1
      · exact h1
    obtain ⟨hv, hparse⟩ := mem_parsedPairs.mp hmem
    obtain ⟨_, hbound⟩ := foldl_maxStep_bound _ none p hf
    subst hm
    refine ⟨hv, p.1, hparse, ?_⟩
    intro v t hvmem hvt
    exact hbound (t, v) (mem_parsedPairs.mpr ⟨hvmem, hvt⟩)

theorem max_semver_parseable {values : List String} {m : String}
    (h : max_semver values = some m) : ∃ tm, parse_semver m = some tm := by
  obtain ⟨_, tm, htm, _⟩ := max_semver_spec h
  exact ⟨tm, htm⟩

theorem max_semver_ne_empty {values : List String} {m : String}
    (h : max_semver values = some m) : m ≠ "" := by
  obtain ⟨tm, htm⟩ := max_semver_parseable h
  intro he
  subst he
  simp [parse_semver, stripList, splitDots, isDigits] at htm

/-! ## Soundness of the helm filename pattern -/

theorem spanDigits_parts {cs d r : List Char} (h : spanDigits cs = (d, r)) :
    d ++ r = cs ∧ ∀ c ∈ d, isDigitCh c = true := by
  have hspan : spanDigits cs = (cs.takeWhile isDigitCh, cs.dropWhile isDigitCh) := by
    simp [spanDigits]
  rw [hspan] at h
  cases h
  exact ⟨List.takeWhile_append_dropWhile isDigitCh cs,
    fun c hc => List.mem_takeWhile_imp hc⟩

theorem isDigits_of_parts {d : List Char} (hne : ¬d.isEmpty = true)
    (hall : ∀ c ∈ d, isDigitCh c = true) : isDigits d = true := by
  simp only [isDigits, Bool.and_eq_true, Bool.not_eq_true', List.all_eq_true]
  exact ⟨by simpa using hne, hall⟩

theorem matchTriple_sound {cs v r : List Char} (h : matchTriple cs = some (v, r)) :
    cs = v ++ r ∧ ∃ x y z, v = x ++ '.' :: (y ++ '.' :: z) ∧
      isDigits x = true ∧ isDigits y = true ∧ isDigits z = true := by
  unfold matchTriple at h
  split at h
  split at h
  next he1 => cases h
  next he1 =>
    split at h
    next c1 r2 =>
      split at h
      next hc1 =>
        split at h
        split at h
        next he2 => cases h
        next he2 =>
          split at h
          next c2 r4 =>
            split at h
            next hc2 =>
              split at h
              split at h
              next he3 => cases h
              next he3 =>
                rename_i x3 d3 r5 heq3
                obtain ⟨hceq3, hd3⟩ := spanDigits_parts heq3
                injection h with h2
                obtain ⟨hv, hr⟩ := Prod.mk.inj h2
                subst hv
                subst hr
                subst hc1
                subst hc2
                obtain ⟨hceq1, hd1⟩ := spanDigits_parts r2
                obtain ⟨hceq2, hd2⟩ := spanDigits_parts r4
                constructor
                · rw [← hceq1, ← hceq2, ← hceq3]
                  simp
                · exact ⟨_, _, _, by simp, isDigits_of_parts he1 hd1,
                    isDigits_of_parts he2 hd2, isDigits_of_parts he3 hd3⟩
            next hc2 => cases h
          next => cases h
      next hc1 => cases h
    next => cases h

theorem helmMatchAt_sound {cs : List Char} {v : String} (h : helmMatchAt cs = some v) :
    (cs = '-' :: (v.data ++ ['.', 't', 'g', 'z']) ∨
        cs = '-' :: (v.data ++ ['.', 't', 'g', 'z', '\n'])) ∧
      ∃ x y z, v.data = x ++ '.' :: (y ++ '.' :: z) ∧
        isDigits x = true ∧ isDigits y = true ∧ isDigits z = true := by
  cases cs with
  | nil => cases h
  | cons c rest =>
    unfold helmMatchAt at h
    by_cases hc : c = '-'
    · simp only [hc, if_true] at h
      cases hm : matchTriple rest with
      | none => rw [hm] at h; cases h
      | some p =>
        rcases p with ⟨vl, r⟩
        rw [hm] at h
        by_cases hr : (r = ['.', 't', 'g', 'z'] || r = ['.', 't', 'g', 'z', '\n']) = true
        · simp only [hr, if_true] at h
          injection h with h2
          obtain ⟨hrest, x, y, z, hshape, hx, hy, hz⟩ := matchTriple_sound hm
          subst h2
          subst hc
          simp only [Bool.or_eq_true, decide_eq_true_eq] at hr
          refine ⟨?_, x, y, z, ?_, hx, hy, hz⟩
          · rcases hr with hr | hr
            · exact Or.inl (by rw [hrest, hr])
            · exact Or.inr (by rw [hrest, hr])
          · exact hshape
        · rw [Bool.not_eq_true] at hr
          simp [hr] at h
    · simp [hc] at h

theorem searchHelm_sound : ∀ (cs : List Char) (v : String),
    searchHelm cs = some v →
    (∃ p, cs = p ++ '-' :: (v.data ++ ['.', 't', 'g', 'z']) ∨
        cs = p ++ '-' :: (v.data ++ ['.', 't', 'g', 'z', '\n'])) ∧
      ∃ x y z, v.data = x ++ '.' :: (y ++ '.' :: z) ∧
        isDigits x = true ∧ isDigits y = true ∧ isDigits z = true := by
  intro cs
  induction cs with
  | nil => intro v h; cases h
  | cons c rest ih =>
    intro v h
    unfold searchHelm at h
    cases hm : helmMatchAt (c :: rest) with
    | some w =>
      rw [hm] at h
      cases h
      obtain ⟨hshape1, hshape2⟩ := helmMatchAt_sound hm
      exact ⟨⟨[], by simpa using hshape1⟩, hshape2⟩
    | none =>
      rw [hm] at h
      obtain ⟨⟨p, hp⟩, hshape⟩ := ih v h
      refine ⟨⟨c :: p, ?_⟩, hshape⟩
      rcases hp with hp | hp
      · exact Or.inl (by simp [hp])
      · exact Or.inr (by simp [hp])

/-! ## Branch behaviour of the application resolver -/

theorem parse_empty : parse_semver "" = none := by decide

theorem parse_some_ne_empty {s : String} {t : Nat × Nat × Nat}
    (h : parse_semver s = some t) : s ≠ "" := by
  intro h0
  subst h0
  rw [parse_empty] at h
  cases h

theorem app_tier1_hit {ak : String} {vm : List AppEntry} {u : String}
    {reg : String → RegResult} {s : String} {a b c : Nat}
    (h1 : first_version (payloadOf (reg (tier1_url u ak))) = .ok (some s))
    (hp : parse_semver s = some (a, b, c)) :
    compute_next_application_version ak vm u reg =
      (.ok (verStr a b (c + 1)), [tier1_url u ak]) := by
  simp [compute_next_application_version, h1, hp, bump_patch_of_parse hp]

theorem app_tier1_miss {ak : String} {vm : List AppEntry} {u : String}
    {reg : String → RegResult}
    (h1 : first_version (payloadOf (reg (tier1_url u ak))) = .ok none ∨
      ∃ s, first_version (payloadOf (reg (tier1_url u ak))) = .ok (some s) ∧
        parse_semver s = none) :
    compute_next_application_version ak vm u reg =
      (app_tier2 ak vm u reg, [tier1_url u ak, tier2_url u ak]) := by
  rcases h1 with h1 | ⟨s, h1, hs⟩
  · simp [compute_next_application_version, h1]
  · simp [compute_next_application_version, h1, hs]

theorem app_tier2_max {ak : String} {vm : List AppEntry} {u : String}
    {reg : String → RegResult} {values : List String} {m : String} {a b c : Nat}
    (hex : extract_versions (payloadOf (reg (tier2_url u ak))) = .ok values)
    (hmax : max_semver values = some m)
    (hm : parse_semver m = some (a, b, c)) :
    app_tier2 ak vm u reg = .ok (verStr a b (c + 1)) := by
  have hne : m ≠ "" := max_semver_ne_empty hmax
  simp [app_tier2, hex, hmax, hne, bump_patch_of_parse hm]

theorem app_tier2_to_seed {ak : String} {vm : List AppEntry} {u : String}
    {reg : String → RegResult} {values : List String}
    (hex : extract_versions (payloadOf (reg (tier2_url u ak))) = .ok values)
    (hmax : max_semver values = none) :
    app_tier2 ak vm u reg = app_seed_fallback ak vm := by
  simp [app_tier2, hex, hmax]

theorem app_seed_fallback_ok {ak : String} {vm : List AppEntry} {e : AppEntry}
    {seed : String} {a b c : Nat}
    (hfind : find_app_entry vm ak = some e)
    (hseed : e.seeds_application = some seed)
    (hp : parse_semver seed = some (a, b, c)) :
    app_seed_fallback ak vm = .ok (verStr a b (c + 1)) := by
  have hne : seed ≠ "" := parse_some_ne_empty hp
  simp [app_seed_fallback, hfind, hseed, hne, hp, bump_patch_of_parse hp]

theorem app_seed_fallback_missing {ak : String} {vm : List AppEntry}
    (h : find_app_entry vm ak = none ∨
      (∃ e, find_app_entry vm ak = some e ∧ e.seeds_application = none) ∨
      (∃ e sv, find_app_entry vm ak = some e ∧ e.seeds_application = some sv ∧
        parse_semver sv = none)) :
    app_seed_fallback ak vm = .error .missingSeed := by
  rcases h with h | ⟨e, he, hs⟩ | ⟨e, sv, he, hs, hp⟩
  · simp [app_seed_fallback, h]
  · simp [app_seed_fallback, he, hs]
  · by_cases hsv : sv = ""
    · simp [app_seed_fallback, he, hs, hsv]
    · simp [app_seed_fallback, he, hs, hsv, hp]

theorem app_transport_fail_as_empty {ak : String} {vm : List AppEntry} {u : String}
    {reg reg' : String → RegResult}
    (h : ∀ url, payloadOf (reg' url) = payloadOf (reg url)) :
    compute_next_application_version ak vm u reg' =
      compute_next_application_version ak vm u reg := by
  unfold compute_next_application_version app_tier2
  simp only [h]

/-! ## Branch behaviour of the package resolver -/

theorem compute_pkg_unfold {ak pn : String} {vm : List AppEntry} {u : String}
    {pk : Option String} {stage : String} {reg : Request → RegResult}
    {pkg : PackageSpec} {seedv : String} {t : Nat × Nat × Nat}
    (hfind : find_package vm ak pn = some pkg)
    (hseed : pkg.seed = some seedv)
    (hp : parse_semver seedv = some t) :
    compute_next_package_tag ak pn vm u pk stage reg =
      (finish_tag seedv (adapter_dispatch ak pn pkg.type u pk stage reg).1,
        (adapter_dispatch ak pn pkg.type u pk stage reg).2) := by
  have hne : seedv ≠ "" := parse_some_ne_empty hp
  rcases hd : adapter_dispatch ak pn pkg.type u pk stage reg with ⟨outcome, trace⟩
  simp [compute_next_package_tag, hfind, hseed, hne, hp, hd]

theorem seed_bump_ok {seedv : String} {a b c : Nat}
    (hp : parse_semver seedv = some (a, b, c)) :
    seed_bump seedv = .ok (verStr a b (c + 1)) := by
  simp [seed_bump, bump_patch_of_parse hp]

theorem finish_tag_nonempty {seedv : String} {existing : List String}
    (hne : existing ≠ [])
    (hall : ∀ v ∈ existing, (parse_semver v).isSome = true) :
    ∃ m a b c, max_semver existing = some m ∧ parse_semver m = some (a, b, c) ∧
      finish_tag seedv (.cands existing) = .ok (verStr a b (c + 1)) := by
  cases existing with
  | nil => exact absurd rfl hne
  | cons v vs =>
    cases hm : max_semver (v :: vs) with
    | none =>
      have h0 := (max_semver_none_iff _).mp hm v (List.mem_cons_self _ _)
      have h2 := hall v (List.mem_cons_self _ _)
      rw [h0] at h2
      cases h2
    | some m =>
      obtain ⟨⟨a, b, c⟩, hparse⟩ := max_semver_parseable hm
      have hmne : m ≠ "" := max_semver_ne_empty hm
      refine ⟨m, a, b, c, rfl, hparse, ?_⟩
      simp [finish_tag, hm, hmne, bump_patch_of_parse hparse]

theorem keptOption_parseable {w v : String}
    (h : (if (parse_semver w).isSome then some w else none) = some v) :
    (parse_semver v).isSome = true := by
  by_cases hw : (parse_semver w).isSome = true
  · rw [if_pos hw] at h
    cases h
    exact hw
  · rw [if_neg hw] at h
    cases h

theorem docker_tag_item_parseable {t : JVal} {v : String}
    (h : docker_tag_item t = some v) : (parse_semver v).isSome = true := by
  unfold docker_tag_item at h
  split at h
  · exact keptOption_parseable h
  · cases h

theorem generic_item_parseable {it : JVal} {v : String}
    (h : generic_item it = .ok (some v)) : (parse_semver v).isSome = true := by
  unfold generic_item at h
  split at h <;> try cases h
  split at h <;> try cases h
  split at h <;> try cases h
  next heq =>
    injection h with h2
    exact keptOption_parseable h2

theorem helm_item_parseable {it : JVal} {v : String}
    (h : helm_item it = .ok (some v)) : (parse_semver v).isSome = true := by
  unfold helm_item at h
  split at h <;> try cases h
  split at h <;> try cases h
  next heq =>
    injection h with h2
    exact keptOption_parseable h2

theorem python_item_parseable {it : JVal} {v : String}
    (h : python_item it = .ok (some v)) : (parse_semver v).isSome = true := by
  unfold python_item at h
  split at h <;> try cases h
  split at h <;> try cases h
  next heq =>
    injection h with h2
    exact keptOption_parseable h2

theorem collectItems_parseable {ex : JVal → Except String (Option String)}
    (hex : ∀ it v, ex it = .ok (some v) → (parse_semver v).isSome = true) :
    ∀ (items : List JVal) (vs : List String),
      collectItems ex items = .ok vs → ∀ v ∈ vs, (parse_semver v).isSome = true := by
  intro items
  induction items with
  | nil =>
    intro vs h v hv
    injection h with h2
    subst h2
    cases hv
  | cons it rest ih =>
    intro vs h v hv
    unfold collectItems at h
    cases hit : ex it with
    | error m => rw [hit] at h; cases h
    | ok r =>
      rw [hit] at h
      cases hrest : collectItems ex rest with
      | error m => rw [hrest] at h; cases h
      | ok vs' =>
        rw [hrest] at h
        cases r with
        | some w =>
          injection h with h2
          subst h2
          rcases List.mem_cons.mp hv with h3 | h3
          · subst h3; exact hex it v hit
          · exact ih vs' hrest v h3
        | none =>
          injection h with h2
          subst h2
          exact ih vs' hrest v hv

theorem run_aql_payload_parseable {ex : JVal → Except String (Option String)}
    (hex : ∀ it v, ex it = .ok (some v) → (parse_semver v).isSome = true)
    {p : JVal} {vs : List String} (h : run_aql_payload ex p = .ok vs) :
    ∀ v ∈ vs, (parse_semver v).isSome = true := by
  unfold run_aql_payload at h
  split at h
  case _ fs =>
    split at h
    case _ rv hrv =>
      cases hi : pyIter rv with
      | error m => rw [hi] at h; cases h
      | ok items =>
        rw [hi] at h
        exact collectItems_parseable hex items vs h
    case _ =>
      injection h with h2
      subst h2
      intro v hv
      cases hv
  case _ =>
    injection h with h2
    subst h2
    intro v hv
    cases hv

theorem run_docker_parseable {resp : RegResult} {vs : List String}
    (h : run_docker resp = .ok vs) : ∀ v ∈ vs, (parse_semver v).isSome = true := by
  unfold run_docker at h
  split at h
  · cases h
  case _ p =>
    split at h
    case _ fs =>
      split at h
      case _ tv htv =>
        cases hi : pyIter tv with
        | error m => rw [hi] at h; cases h
        | ok items =>
          rw [hi] at h
          injection h with h2
          subst h2
          intro v hv
          obtain ⟨t, ht, hmt⟩ := List.mem_filterMap.mp hv
          exact docker_tag_item_parseable hmt
      case _ =>
        injection h with h2
        subst h2
        intro v hv
        cases hv
    case _ =>
      injection h with h2
      subst h2
      intro v hv
      cases hv

theorem run_aql_results_parseable {ex : JVal → Except String (Option String)}
    (hex : ∀ it v, ex it = .ok (some v) → (parse_semver v).isSome = true)
    {resp : RegResult} {vs : List String} (h : run_aql_results ex resp = .ok vs) :
    ∀ v ∈ vs, (parse_semver v).isSome = true := by
  unfold run_aql_results at h
  split at h
  · cases h
  case _ p => exact run_aql_payload_parseable hex h

theorem run_python_parseable {aurl pypi_rk python_rk : String}
    {reg : Request → RegResult} {vs : List String} {tr : List Request}
    (h : run_python aurl pypi_rk python_rk reg = (.ok vs, tr)) :
    ∀ v ∈ vs, (parse_semver v).isSome = true := by
  unfold run_python at h
  split at h
  · obtain ⟨h1, _⟩ := Prod.mk.inj h; cases h1
  · split at h
    · obtain ⟨h1, _⟩ := Prod.mk.inj h; cases h1
    · obtain ⟨h1, _⟩ := Prod.mk.inj h
      exact run_aql_payload_parseable (fun it v hiv => python_item_parseable hiv) h1
    · split at h
      · obtain ⟨h1, _⟩ := Prod.mk.inj h; cases h1
      · split at h
        · obtain ⟨h1, _⟩ := Prod.mk.inj h; cases h1
        · obtain ⟨h1, _⟩ := Prod.mk.inj h
          exact run_aql_payload_parseable
            (fun it v hiv => python_item_parseable hiv) h1
        · obtain ⟨h1, _⟩ := Prod.mk.inj h
          injection h1 with h2
          subst h2
          intro v hv
          cases hv

theorem classify_cands {nf : String → Bool} {r : Except String (List String)}
    {existing : List String} (h : classify nf r = .cands existing) :
    r = .ok existing ∨ existing = [] := by
  cases r with
  | ok vs =>
    simp only [classify] at h
    injection h with h2
    subst h2
    exact Or.inl rfl
  | error m =>
    simp only [classify] at h
    by_cases hm : nf m = true
    · rw [if_pos hm] at h
      injection h with h2
      exact Or.inr h2.symm
    · rw [if_neg hm] at h
      cases h

theorem run_python_parseable1 {aurl pypi_rk python_rk : String}
    {reg : Request → RegResult} {vs : List String}
    (h : (run_python aurl pypi_rk python_rk reg).1 = .ok vs) :
    ∀ v ∈ vs, (parse_semver v).isSome = true := by
  rcases hp : run_python aurl pypi_rk python_rk reg with ⟨r, tr⟩
  rw [hp] at h
  have h2 : r = .ok vs := h
  subst h2
  exact run_python_parseable hp

theorem adapter_dispatch_parseable {ak pn ptype u : String} {pk : Option String}
    {stage : String} {reg : Request → RegResult} {existing : List String}
    (h : (adapter_dispatch ak pn ptype u pk stage reg).1 = .cands existing) :
    ∀ v ∈ existing, (parse_semver v).isSome = true := by
  unfold adapter_dispatch at h
  split_ifs at h with h1 h2 h3 h4
  · rcases classify_cands h with hr | hr
    · exact run_docker_parseable hr
    · subst hr; intro v hv; cases hv
  · rcases classify_cands h with hr | hr
    · exact run_aql_results_parseable (fun it v hiv => generic_item_parseable hiv) hr
    · subst hr; intro v hv; cases hv
  · rcases classify_cands h with hr | hr
    · exact run_aql_results_parseable (fun it v hiv => helm_item_parseable hiv) hr
    · subst hr; intro v hv; cases hv
  · rcases classify_cands h with hr | hr
    · exact run_python_parseable1 hr
    · subst hr; intro v hv; cases hv
  · have h2 : AdapterOutcome.cands [] = AdapterOutcome.cands existing := h
    injection h2 with h3
    subst h3
    intro v hv
    cases hv

theorem adapter_dispatch_const_fail {ak pn ptype u : String} {pk : Option String}
    {stage msg : String}
    (hty : ptype = "docker" ∨ ptype = "generic" ∨ ptype = "helm" ∨
      ptype = "python" ∨ ptype = "pypi") :
    (adapter_dispatch ak pn ptype u pk stage (fun _ => RegResult.fail msg)).1 =
      (if not_found_for ptype msg then AdapterOutcome.cands [] else AdapterOutcome.fatal) := by
  rcases hty with h | h | h | h | h <;> subst h <;>
    simp [adapter_dispatch, not_found_for, classify, run_docker, run_aql_results,
      run_python]

/-! ## Every successful resolution is a `bump_patch` result -/

theorem bump_patch_success {x v : String} (h : bump_patch x = some v) :
    ∃ a b c, parse_semver x = some (a, b, c) ∧ v = verStr a b (c + 1) ∧
      parse_semver v = some (a, b, c + 1) := by
  unfold bump_patch at h
  split at h
  · cases h
  next a b c hp =>
    injection h with h2
    subst h2
    exact ⟨a, b, c, hp, rfl, parse_verStr a b (c + 1)⟩

theorem app_seed_fallback_success {ak : String} {vm : List AppEntry} {v : String}
    (h : app_seed_fallback ak vm = .ok v) :
    ∃ x a b c, parse_semver x = some (a, b, c) ∧ bump_patch x = some v ∧
      parse_semver v = some (a, b, c + 1) := by
  unfold app_seed_fallback at h
  split at h
  · cases h
  · split at h
    · cases h
    · split at h
      · cases h
      · split at h
        · cases h
        · split at h
          · rename_i r heq
            injection h with h2
            subst h2
            obtain ⟨a, b, c, hp, hv, hpv⟩ := bump_patch_success heq
            exact ⟨_, a, b, c, hp, heq, hpv⟩
          · cases h

theorem app_tier2_success {ak : String} {vm : List AppEntry} {u : String}
    {reg : String → RegResult} {v : String}
    (h : app_tier2 ak vm u reg = .ok v) :
    ∃ x a b c, parse_semver x = some (a, b, c) ∧ bump_patch x = some v ∧
      parse_semver v = some (a, b, c + 1) := by
  unfold app_tier2 at h
  split at h
  · cases h
  · split at h
    · split at h
      · exact app_seed_fallback_success h
      · split at h
        · rename_i r heq
          injection h with h2
          subst h2
          obtain ⟨a, b, c, hp, hv, hpv⟩ := bump_patch_success heq
          exact ⟨_, a, b, c, hp, heq, hpv⟩
        · cases h
    · exact app_seed_fallback_success h

theorem app_success_bump {ak : String} {vm : List AppEntry} {u : String}
    {reg : String → RegResult} {v : String} {tr : List String}
    (h : compute_next_application_version ak vm u reg = (.ok v, tr)) :
    ∃ x a b c, parse_semver x = some (a, b, c) ∧ bump_patch x = some v ∧
      parse_semver v = some (a, b, c + 1) := by
  unfold compute_next_application_version at h
  split at h
  · obtain ⟨h1, _⟩ := Prod.mk.inj h
    cases h1
  · split at h
    · split at h
      next heq =>
        obtain ⟨h1, _⟩ := Prod.mk.inj h
        injection h1 with h2
        subst h2
        obtain ⟨a, b, c, hp, hv, hpv⟩ := bump_patch_success heq
        exact ⟨_, a, b, c, hp, heq, hpv⟩
      · obtain ⟨h1, _⟩ := Prod.mk.inj h
        cases h1
    · obtain ⟨h1, _⟩ := Prod.mk.inj h
      exact app_tier2_success h1
  · obtain ⟨h1, _⟩ := Prod.mk.inj h
    exact app_tier2_success h1

theorem seed_bump_success {seedv v : String} (h : seed_bump seedv = .ok v) :
    ∃ x a b c, parse_semver x = some (a, b, c) ∧ bump_patch x = some v ∧
      parse_semver v = some (a, b, c + 1) := by
  unfold seed_bump at h
  split at h
  · rename_i r heq
    injection h with h2
    subst h2
    obtain ⟨a, b, c, hp, hv, hpv⟩ := bump_patch_success heq
    exact ⟨_, a, b, c, hp, heq, hpv⟩
  · cases h

theorem finish_tag_success {seedv : String} {out : AdapterOutcome} {v : String}
    (h : finish_tag seedv out = .ok v) :
    ∃ x a b c, parse_semver x = some (a, b, c) ∧ bump_patch x = some v ∧
      parse_semver v = some (a, b, c + 1) := by
  cases out with
  | fatal => cases h
  | cands existing =>
    cases existing with
    | nil =>
      simp only [finish_tag] at h
      exact seed_bump_success h
    | cons w ws =>
      simp only [finish_tag] at h
      split at h
      · split at h
        · exact seed_bump_success h
        · split at h
          · rename_i r heq
            injection h with h2
            subst h2
            obtain ⟨a, b, c, hp, hv, hpv⟩ := bump_patch_success heq
            exact ⟨_, a, b, c, hp, heq, hpv⟩
          · cases h
      · exact seed_bump_success h

theorem pkg_success_bump {ak pn : String} {vm : List AppEntry} {u : String}
    {pk : Option String} {stage : String} {reg : Request → RegResult}
    {v : String} {tr : List Request}
    (h : compute_next_package_tag ak pn vm u pk stage reg = (.ok v, tr)) :
    ∃ x a b c, parse_semver x = some (a, b, c) ∧ bump_patch x = some v ∧
      parse_semver v = some (a, b, c + 1) := by
  unfold compute_next_package_tag at h
  split at h
  · obtain ⟨h1, _⟩ := Prod.mk.inj h
    cases h1
  · split at h
    · obtain ⟨h1, _⟩ := Prod.mk.inj h
      cases h1
    · split at h
      · obtain ⟨h1, _⟩ := Prod.mk.inj h
        cases h1
      · split at h
        · obtain ⟨h1, _⟩ := Prod.mk.inj h
          cases h1
        · obtain ⟨h1, _⟩ := Prod.mk.inj h
          exact finish_tag_success h1

/-! ## A character-level characterization of `parse_semver` -/

theorem isDigits_mem {x : List Char} (h : isDigits x = true) :
    x ≠ [] ∧ ∀ c ∈ x, isDigitCh c = true := by
  simp only [isDigits, Bool.and_eq_true, Bool.not_eq_true', List.all_eq_true] at h
  exact ⟨by simpa [List.isEmpty_iff] using h.1, h.2⟩

theorem isDigits_no_dot {x : List Char} (h : isDigits x = true) : '.' ∉ x := by
  intro hm
  exact digit_ne_dot ((isDigits_mem h).2 '.' hm) rfl

theorem parse_semver_iff (s : String) (a b c : Nat) :
    parse_semver s = some (a, b, c) ↔
      ∃ x y z, stripList s.data = x ++ '.' :: (y ++ '.' :: z) ∧
        isDigits x = true ∧ isDigits y = true ∧ isDigits z = true ∧
        digitsVal x = a ∧ digitsVal y = b ∧ digitsVal z = c := by
  constructor
  · intro h
    unfold parse_semver at h
    split at h
    case _ x y z hsplit =>
      split at h
      case isTrue hcond =>
        injection h with h2
        obtain ⟨ha, hbc⟩ := Prod.mk.inj h2
        obtain ⟨hb, hc⟩ := Prod.mk.inj hbc
        simp only [Bool.and_eq_true] at hcond
        refine ⟨x, y, z, ?_, hcond.1.1, hcond.1.2, hcond.2, ha, hb, hc⟩
        have hj := joinDots_splitDots (stripList s.data)
        rw [hsplit] at hj
        rw [← hj]
        rfl
      case isFalse => cases h
    case _ => cases h
  · rintro ⟨x, y, z, hsplit, hx, hy, hz, ha, hb, hc⟩
    unfold parse_semver
    rw [hsplit, splitDots_append x (isDigits_no_dot hx) _,
      splitDots_append y (isDigits_no_dot hy) _,
      splitDots_no_dot z (isDigits_no_dot hz)]
    simp [hx, hy, hz, ha, hb, hc]

/-! ## The claims -/

/-- C1, counterexample: the tier-1 application-versions query carries
`limit=10`, not `limit=1`; and a tier-1 response that does yield a parseable
version string (in its second record) still leads to the tier-2 query being
issued — both contradicting the claim as stated. -/
theorem C1_counterexample :
    strContains (tier1_url "https://example.jfrog.io" "bookverse-web") "limit=10&" = true ∧
    strContains (tier1_url "https://example.jfrog.io" "bookverse-web") "limit=1&" = false ∧
    (compute_next_application_version "bookverse-web"
        [⟨"bookverse-web", some "1.0.0", []⟩] "https://example.jfrog.io"
        (fun u =>
          if u = tier1_url "https://example.jfrog.io" "bookverse-web" then
            .ok (.jobj [("versions", .jarr [.jobj [("version", .jstr "not-a-version")],
              .jobj [("version", .jstr "1.2.3")]])])
          else .ok (.jobj []))).2 =
      [tier1_url "https://example.jfrog.io" "bookverse-web",
        tier2_url "https://example.jfrog.io" "bookverse-web"] := by
  refine ⟨by decide, by decide, by decide⟩

/-- C1, amended: the tier-1 registry query requests up to the 10
most-recently-created version records (limit 10, ordered by creation time
descending) and considers only the first record of the response; whenever
that first record yields a parseable version string, the resolver returns
`bumpPatch` of it without issuing the tier-2 query (the issued-request trace
is exactly the tier-1 URL).  Scenario B holds concretely. -/
theorem C1_tier1_behaviour :
    (∀ (u k : String), ∃ p, (tier1_url u k).data =
        p ++ ("/versions?limit=10&order_by=created&order_asc=false").data) ∧
    (∀ (ak : String) (vm : List AppEntry) (u : String) (reg : String → RegResult)
        (s : String) (a b c : Nat),
      first_version (payloadOf (reg (tier1_url u ak))) = .ok (some s) →
      parse_semver s = some (a, b, c) →
      compute_next_application_version ak vm u reg =
        (.ok (verStr a b (c + 1)), [tier1_url u ak])) ∧
    compute_next_application_version "app" [] "https://j"
      (fun _ => .ok (.jobj [("versions", .jarr [.jobj [("version", .jstr "2.3.4")]])])) =
      (.ok "2.3.5", [tier1_url "https://j" "app"]) := by
  refine ⟨?_, ?_, by decide⟩
  · intro u k
    exact ⟨(apiBase u ++ "/applications/" ++ pyQuote k).data, by simp [tier1_url]⟩
  · intro ak vm u reg s a b c h1 hp
    exact app_tier1_hit h1 hp

/-- C1 witness: the tier-1-hit clause applied at a concrete registry. -/
theorem C1_tier1_behaviour_witness :
    compute_next_application_version "app" [] "https://j"
      (fun _ => .ok (.jobj [("versions", .jarr [.jobj [("version", .jstr "2.3.4")]])])) =
      (.ok (verStr 2 3 (4 + 1)), [tier1_url "https://j" "app"]) :=
  C1_tier1_behaviour.2.1 "app" [] "https://j" _ "2.3.4" 2 3 4 (by decide) (by decide)

/-- C2: the application resolver follows the strict ordered fallback chain
— a parseable tier-1 first record wins regardless of what tier 2 would
return; only on tier-1 absence is the tier-2 query issued, and its maximum
extracted version wins; only when tier 2 also yields nothing is the seed
consulted (`bumpPatch` of a parseable seed, `MissingSeed` otherwise); and a
transport failure at either tier behaves exactly like an empty payload
rather than failing the resolution. -/
theorem C2_fallback_chain :
    (∀ (ak : String) (vm : List AppEntry) (u : String) (reg : String → RegResult)
        (s : String) (a b c : Nat),
      first_version (payloadOf (reg (tier1_url u ak))) = .ok (some s) →
      parse_semver s = some (a, b, c) →
      compute_next_application_version ak vm u reg =
        (.ok (verStr a b (c + 1)), [tier1_url u ak])) ∧
    (∀ (ak : String) (vm : List AppEntry) (u : String) (reg : String → RegResult)
        (values : List String) (m : String) (a b c : Nat),
      (first_version (payloadOf (reg (tier1_url u ak))) = .ok none ∨
        ∃ s, first_version (payloadOf (reg (tier1_url u ak))) = .ok (some s) ∧
          parse_semver s = none) →
      extract_versions (payloadOf (reg (tier2_url u ak))) = .ok values →
      max_semver values = some m →
      parse_semver m = some (a, b, c) →
      compute_next_application_version ak vm u reg =
        (.ok (verStr a b (c + 1)), [tier1_url u ak, tier2_url u ak])) ∧
    (∀ (ak : String) (vm : List AppEntry) (u : String) (reg : String → RegResult)
        (values : List String) (e : AppEntry) (seed : String) (a b c : Nat),
      (first_version (payloadOf (reg (tier1_url u ak))) = .ok none ∨
        ∃ s, first_version (payloadOf (reg (tier1_url u ak))) = .ok (some s) ∧
          parse_semver s = none) →
      extract_versions (payloadOf (reg (tier2_url u ak))) = .ok values →
      max_semver values = none →
      find_app_entry vm ak = some e →
      e.seeds_application = some seed →
      parse_semver seed = some (a, b, c) →
      compute_next_application_version ak vm u reg =
        (.ok (verStr a b (c + 1)), [tier1_url u ak, tier2_url u ak])) ∧
    (∀ (ak : String) (vm : List AppEntry) (u : String) (reg : String → RegResult)
        (values : List String),
      (first_version (payloadOf (reg (tier1_url u ak))) = .ok none ∨
        ∃ s, first_version (payloadOf (reg (tier1_url u ak))) = .ok (some s) ∧
          parse_semver s = none) →
      extract_versions (payloadOf (reg (tier2_url u ak))) = .ok values →
      max_semver values = none →
      (find_app_entry vm ak = none ∨
        (∃ e, find_app_entry vm ak = some e ∧ e.seeds_application = none) ∨
        (∃ e sv, find_app_entry vm ak = some e ∧ e.seeds_application = some sv ∧
          parse_semver sv = none)) →
      compute_next_application_version ak vm u reg =
        (.error .missingSeed, [tier1_url u ak, tier2_url u ak])) ∧
    (∀ (ak : String) (vm : List AppEntry) (u : String) (reg reg' : String → RegResult),
      (∀ url, payloadOf (reg' url) = payloadOf (reg url)) →
      compute_next_application_version ak vm u reg' =
        compute_next_application_version ak vm u reg) := by
  refine ⟨?_, ?_, ?_, ?_, ?_⟩
  · intro ak vm u reg s a b c h1 hp
    exact app_tier1_hit h1 hp
  · intro ak vm u reg values m a b c h1 hex hmax hm
    rw [app_tier1_miss h1, app_tier2_max hex hmax hm]
  · intro ak vm u reg values e seed a b c h1 hex hmax hfind hseed hp
    rw [app_tier1_miss h1, app_tier2_to_seed hex hmax,
      app_seed_fallback_ok hfind hseed hp]
  · intro ak vm u reg values h1 hex hmax hmiss
    rw [app_tier1_miss h1, app_tier2_to_seed hex hmax,
      app_seed_fallback_missing hmiss]
  · intro ak vm u reg reg' h
    exact app_transport_fail_as_empty h

/-- C2 witness: scenario A — both queries return empty payloads and the seed
`1.0.0` yields `1.0.1` after both URLs were queried. -/
theorem C2_fallback_chain_witness :
    compute_next_application_version "X" [⟨"X", some "1.0.0", []⟩] "https://j"
      (fun _ => .ok (.jobj [])) =
      (.ok (verStr 1 0 (0 + 1)), [tier1_url "https://j" "X", tier2_url "https://j" "X"]) :=
  C2_fallback_chain.2.2.1 "X" [⟨"X", some "1.0.0", []⟩] "https://j" _ []
    ⟨"X", some "1.0.0", []⟩ "1.0.0" 1 0 0 (Or.inl (by decide)) (by decide) (by decide)
    (by decide) (by decide) (by decide)

/-- C3: when a package's type-specific query raises, a message the adapter
classifies as "not found"-style leaves zero candidates, so the resolved tag
is `bumpPatch` of the seed; any other failure message terminates the
resolution with the fatal registry error instead of falling back. -/
theorem C3_adapter_failure_policy :
    ∀ (ak pn : String) (vm : List AppEntry) (u : String) (pk : Option String)
      (stage msg : String) (pkg : PackageSpec) (seedv : String) (a b c : Nat),
      find_package vm ak pn = some pkg →
      pkg.seed = some seedv →
      parse_semver seedv = some (a, b, c) →
      (pkg.type = "docker" ∨ pkg.type = "generic" ∨ pkg.type = "helm" ∨
        pkg.type = "python" ∨ pkg.type = "pypi") →
      ((not_found_for pkg.type msg = true →
          (compute_next_package_tag ak pn vm u pk stage (fun _ => .fail msg)).1 =
            .ok (verStr a b (c + 1))) ∧
        (not_found_for pkg.type msg = false →
          (compute_next_package_tag ak pn vm u pk stage (fun _ => .fail msg)).1 =
            .error .fatalRegistry)) := by
  intro ak pn vm u pk stage msg pkg seedv a b c hfind hseed hp hty
  have hu := @compute_pkg_unfold ak pn vm u pk stage (fun _ => .fail msg) pkg seedv
    (a, b, c) hfind hseed hp
  have hd := @adapter_dispatch_const_fail ak pn pkg.type u pk stage msg hty
  constructor
  · intro hnf
    rw [hu]
    show finish_tag seedv _ = _
    rw [hd, if_pos hnf]
    show seed_bump seedv = _
    exact seed_bump_ok hp
  · intro hnf
    rw [hu]
    show finish_tag seedv _ = _
    rw [hd, if_neg (by simp [hnf])]
    rfl

/-- C3 witness: a docker package under a 404-style failure resolves to the
bumped seed, and under an authentication failure resolves fatally. -/
theorem C3_adapter_failure_policy_witness :
    ((not_found_for "docker" "HTTP Error 404: Not Found" = true →
        (compute_next_package_tag "bookverse-web" "web"
            [⟨"bookverse-web", none, [⟨"web", "docker", some "2.0.0"⟩]⟩] "https://j"
            none "DEV" (fun _ => .fail "HTTP Error 404: Not Found")).1 =
          .ok (verStr 2 0 (0 + 1))) ∧
      (not_found_for "docker" "HTTP Error 404: Not Found" = false →
        (compute_next_package_tag "bookverse-web" "web"
            [⟨"bookverse-web", none, [⟨"web", "docker", some "2.0.0"⟩]⟩] "https://j"
            none "DEV" (fun _ => .fail "HTTP Error 404: Not Found")).1 =
          .error .fatalRegistry)) ∧
    ((not_found_for "docker" "HTTP Error 401: Unauthorized" = true →
        (compute_next_package_tag "bookverse-web" "web"
            [⟨"bookverse-web", none, [⟨"web", "docker", some "2.0.0"⟩]⟩] "https://j"
            none "DEV" (fun _ => .fail "HTTP Error 401: Unauthorized")).1 =
          .ok (verStr 2 0 (0 + 1))) ∧
      (not_found_for "docker" "HTTP Error 401: Unauthorized" = false →
        (compute_next_package_tag "bookverse-web" "web"
            [⟨"bookverse-web", none, [⟨"web", "docker", some "2.0.0"⟩]⟩] "https://j"
            none "DEV" (fun _ => .fail "HTTP Error 401: Unauthorized")).1 =
          .error .fatalRegistry)) :=
  ⟨C3_adapter_failure_policy "bookverse-web" "web"
      [⟨"bookverse-web", none, [⟨"web", "docker", some "2.0.0"⟩]⟩] "https://j"
      none "DEV" "HTTP Error 404: Not Found" ⟨"web", "docker", some "2.0.0"⟩
      "2.0.0" 2 0 0 (by decide) (by decide) (by decide) (Or.inl (by decide)),
    C3_adapter_failure_policy "bookverse-web" "web"
      [⟨"bookverse-web", none, [⟨"web", "docker", some "2.0.0"⟩]⟩] "https://j"
      none "DEV" "HTTP Error 401: Unauthorized" ⟨"web", "docker", some "2.0.0"⟩
      "2.0.0" 2 0 0 (by decide) (by decide) (by decide) (Or.inl (by decide))⟩

/-- C4: with a valid seed and a successful type-specific lookup, the package
tag is `bumpPatch` of the maximum of the extracted parseable versions when
at least one was extracted, and `bumpPatch` of the seed when none were;
concretely, a helm package with seed `0.1.0` whose search returns
`pkg-0.1.0.tgz` and `pkg-0.2.0.tgz` resolves to `0.2.1`. -/
theorem C4_package_resolution :
    (∀ (ak pn : String) (vm : List AppEntry) (u : String) (pk : Option String)
        (stage : String) (reg : Request → RegResult) (pkg : PackageSpec)
        (seedv : String) (a b c : Nat) (existing : List String),
      find_package vm ak pn = some pkg →
      pkg.seed = some seedv →
      parse_semver seedv = some (a, b, c) →
      (adapter_dispatch ak pn pkg.type u pk stage reg).1 = .cands existing →
      ((existing = [] →
          (compute_next_package_tag ak pn vm u pk stage reg).1 =
            .ok (verStr a b (c + 1))) ∧
        (existing ≠ [] →
          ∃ m ma mb mc, max_semver existing = some m ∧
            parse_semver m = some (ma, mb, mc) ∧
            (compute_next_package_tag ak pn vm u pk stage reg).1 =
              .ok (verStr ma mb (mc + 1))))) ∧
    (compute_next_package_tag "bookverse-web" "pkg"
        [⟨"bookverse-web", none, [⟨"pkg", "helm", some "0.1.0"⟩]⟩] "https://j" none "DEV"
        (fun r => match r with
          | .post _ _ => .ok (.jobj [("results",
              .jarr [.jobj [("name", .jstr "pkg-0.1.0.tgz")],
                .jobj [("name", .jstr "pkg-0.2.0.tgz")]])])
          | _ => .ok (.jobj []))).1 = .ok "0.2.1" := by
  constructor
  · intro ak pn vm u pk stage reg pkg seedv a b c existing hfind hseed hp hdisp
    have hu := @compute_pkg_unfold ak pn vm u pk stage reg pkg seedv (a, b, c)
      hfind hseed hp
    constructor
    · intro hnil
      subst hnil
      rw [hu]
      show finish_tag seedv _ = _
      rw [hdisp]
      show seed_bump seedv = _
      exact seed_bump_ok hp
    · intro hne
      have hall := adapter_dispatch_parseable hdisp
      obtain ⟨m, ma, mb, mc, hmax, hparse, hfin⟩ :=
        @finish_tag_nonempty seedv existing hne hall
      refine ⟨m, ma, mb, mc, hmax, hparse, ?_⟩
      rw [hu]
      show finish_tag seedv _ = _
      rw [hdisp]
      exact hfin
  · decide

/-- C4 witness: a docker package whose registry lists tags 1.2.3 and 1.2.9
resolves to `bumpPatch` of the maximum, 1.2.10. -/
theorem C4_package_resolution_witness :
    ∃ m ma mb mc, max_semver ["1.2.3", "1.2.9"] = some m ∧
      parse_semver m = some (ma, mb, mc) ∧
      (compute_next_package_tag "bookverse-web" "web"
          [⟨"bookverse-web", none, [⟨"web", "docker", some "2.0.0"⟩]⟩] "https://j" none "DEV"
          (fun _ => .ok (.jobj [("tags", .jarr [.jstr "1.2.3", .jstr "1.2.9"])]))).1 =
        .ok (verStr ma mb (mc + 1)) :=
  ((C4_package_resolution.1 "bookverse-web" "web"
      [⟨"bookverse-web", none, [⟨"web", "docker", some "2.0.0"⟩]⟩] "https://j" none "DEV"
      (fun _ => .ok (.jobj [("tags", .jarr [.jstr "1.2.3", .jstr "1.2.9"])]))
      ⟨"web", "docker", some "2.0.0"⟩ "2.0.0" 2 0 0 ["1.2.3", "1.2.9"]
      (by decide) (by decide) (by decide) (by decide)).2 (by decide))

/-- C5: the package lookup fails with `PackageNotFound` when the name is
absent from the application's entry, and with `MissingSeed` when the found
package's seed is absent, empty, or unparseable — in both cases before any
registry request is issued (the request trace is empty). -/
theorem C5_pkg_precheck_order :
    (∀ (ak pn : String) (vm : List AppEntry) (u : String) (pk : Option String)
        (stage : String) (reg : Request → RegResult),
      find_package vm ak pn = none →
      compute_next_package_tag ak pn vm u pk stage reg =
        (.error .packageNotFound, [])) ∧
    (∀ (ak pn : String) (vm : List AppEntry) (u : String) (pk : Option String)
        (stage : String) (reg : Request → RegResult) (pkg : PackageSpec),
      find_package vm ak pn = some pkg →
      (pkg.seed = none ∨ pkg.seed = some "" ∨
        (∃ sv, pkg.seed = some sv ∧ parse_semver sv = none)) →
      compute_next_package_tag ak pn vm u pk stage reg =
        (.error .missingSeed, [])) := by
  constructor
  · intro ak pn vm u pk stage reg hfind
    simp [compute_next_package_tag, hfind]
  · intro ak pn vm u pk stage reg pkg hfind hbad
    rcases hbad with hs | hs | ⟨sv, hs, hpn⟩
    · simp [compute_next_package_tag, hfind, hs]
    · simp [compute_next_package_tag, hfind, hs]
    · by_cases hsv : sv = ""
      · simp [compute_next_package_tag, hfind, hs, hsv]
      · simp [compute_next_package_tag, hfind, hs, hsv, hpn]

/-- C5 witness: a missing package name and an unparseable seed both fail
before any request, at concrete inputs. -/
theorem C5_pkg_precheck_order_witness :
    compute_next_package_tag "app" "nope" [⟨"app", none, []⟩] "https://j" none "DEV"
      (fun _ => .fail "unreachable") = (.error .packageNotFound, []) ∧
    compute_next_package_tag "app" "web" [⟨"app", none, [⟨"web", "docker", some "latest"⟩]⟩]
      "https://j" none "DEV" (fun _ => .fail "unreachable") = (.error .missingSeed, []) :=
  ⟨C5_pkg_precheck_order.1 "app" "nope" [⟨"app", none, []⟩] "https://j" none "DEV" _
      (by decide),
    C5_pkg_precheck_order.2 "app" "web" [⟨"app", none, [⟨"web", "docker", some "latest"⟩]⟩]
      "https://j" none "DEV" _ ⟨"web", "docker", some "latest"⟩ (by decide)
      (Or.inr (Or.inr ⟨"latest", rfl, by decide⟩))⟩

/-- C6: `parse_semver` is total, returning the integer triple exactly when
the trimmed input is three dot-separated nonempty digit strings with nothing
else around them; `v`-prefixed, two- or four-component, suffixed, negative,
and non-numeric inputs are all rejected. -/
theorem C6_parse_total :
    (∀ (s : String) (a b c : Nat),
      parse_semver s = some (a, b, c) ↔
        ∃ x y z, stripList s.data = x ++ '.' :: (y ++ '.' :: z) ∧
          isDigits x = true ∧ isDigits y = true ∧ isDigits z = true ∧
          digitsVal x = a ∧ digitsVal y = b ∧ digitsVal z = c) ∧
    parse_semver "1.2.3" = some (1, 2, 3) ∧
    parse_semver "v1.2.3" = none ∧
    parse_semver "1.2" = none ∧
    parse_semver "1.2.3.4" = none ∧
    parse_semver "1.2.3-beta.1" = none ∧
    parse_semver "1.2.3+build" = none ∧
    parse_semver "-1.2.3" = none ∧
    parse_semver "1.-2.3" = none ∧
    parse_semver "1.a.3" = none ∧
    parse_semver " 1.2.3 " = some (1, 2, 3) := by
  refine ⟨parse_semver_iff, by decide, by decide, by decide, by decide, by decide,
    by decide, by decide, by decide, by decide, by decide⟩

/-- C6 witness: the characterization applied at a concrete string. -/
theorem C6_parse_total_witness : parse_semver "7.8.9" = some (7, 8, 9) :=
  (C6_parse_total.1 "7.8.9" 7 8 9).mpr
    ⟨['7'], ['8'], ['9'], by decide, by decide, by decide, by decide, by decide,
      by decide, by decide⟩

/-- C7: on every parseable `(major, minor, patch)` input, `bump_patch`
returns a version that parses back as `(major, minor, patch + 1)` — only the
patch changes and there is no rollover (`2.9.9 ↦ 2.9.10`); on every
unparseable input it fails (the `ValueError`, modelled as `none`). -/
theorem C7_bump_patch :
    (∀ (s : String) (a b c : Nat), parse_semver s = some (a, b, c) →
      bump_patch s = some (verStr a b (c + 1)) ∧
      parse_semver (verStr a b (c + 1)) = some (a, b, c + 1)) ∧
    (∀ s, parse_semver s = none → bump_patch s = none) ∧
    bump_patch "1.2.3" = some "1.2.4" ∧
    bump_patch "2.9.9" = some "2.9.10" ∧
    bump_patch "not-a-version" = none := by
  refine ⟨?_, ?_, by decide, by decide, by decide⟩
  · intro s a b c h
    exact ⟨bump_patch_of_parse h, parse_verStr a b (c + 1)⟩
  · intro s h
    exact bump_patch_none h

/-- C7 witness: the patch-only clause applied at `9.9.9`. -/
theorem C7_bump_patch_witness :
    bump_patch "9.9.9" = some (verStr 9 9 (9 + 1)) ∧
      parse_semver (verStr 9 9 (9 + 1)) = some (9, 9, 9 + 1) :=
  C7_bump_patch.1 "9.9.9" 9 9 9 (by decide)

/-- C8: `max_semver` returns `none` exactly when no entry parses, and
otherwise returns an entry of the list whose parsed triple is greater than
or equal (lexicographically) to the parsed triple of every parseable entry;
the spec's two concrete examples hold. -/
theorem C8_max_semver :
    (∀ (values : List String),
      (max_semver values = none ↔ ∀ v ∈ values, parse_semver v = none) ∧
      (∀ m, max_semver values = some m →
        m ∈ values ∧ ∃ tm, parse_semver m = some tm ∧
          ∀ v t, v ∈ values → parse_semver v = some t → lexLe t tm = true)) ∧
    max_semver ["1.0.0", "1.2.3", "1.1.5", "nope"] = some "1.2.3" ∧
    max_semver ["invalid", "also-bad"] = none := by
  refine ⟨?_, by decide, by decide⟩
  intro values
  exact ⟨max_semver_none_iff values, fun m hm => max_semver_spec hm⟩

/-- C8 witness: the maximality clause applied at a concrete list. -/
theorem C8_max_semver_witness :
    "1.2.3" ∈ ["1.0.0", "1.2.3", "1.1.5", "nope"] ∧
      ∃ tm, parse_semver "1.2.3" = some tm ∧
        ∀ v t, v ∈ ["1.0.0", "1.2.3", "1.1.5", "nope"] →
          parse_semver v = some t → lexLe t tm = true :=
  (C8_max_semver.1 ["1.0.0", "1.2.3", "1.1.5", "nope"]).2 "1.2.3" (by decide)

/-- C9, counterexample: Python's `$` also matches just before a newline
that ends the string, so the helm adapter accepts the filename
`"name-1.2.3.tgz\n"` — which does not end in the anchored `-X.Y.Z.tgz`
pattern — and still yields the candidate `1.2.3`, refuting "accepts a
filename as a candidate only when it ends in the exact anchored pattern". -/
theorem C9_counterexample :
    helm_item (.jobj [("name", .jstr "name-1.2.3.tgz\n")]) = .ok (some "1.2.3") ∧
    searchHelm ("name-1.2.3.tgz\n").data = some "1.2.3" ∧
    ¬∃ p, ("name-1.2.3.tgz\n").data =
        p ++ '-' :: (("1.2.3").data ++ ['.', 't', 'g', 'z']) := by
  refine ⟨by decide, by decide, ?_⟩
  rintro ⟨p, hp⟩
  have hl : (('-' :: (("1.2.3").data ++ ['.', 't', 'g', 'z'])) : List Char).getLast? =
      some 'z' := by decide
  have h2 : (p ++ '-' :: (("1.2.3").data ++ ['.', 't', 'g', 'z'])).getLast? = some 'z' := by
    rw [List.getLast?_append, hl]
    rfl
  have h1 : (("name-1.2.3.tgz\n").data).getLast? = some '\n' := by decide
  rw [hp, h2] at h1
  simp at h1

/-- C9, amended: the helm adapter's extraction accepts a filename as a
candidate only when it ends in the exact anchored pattern `-X.Y.Z.tgz`,
optionally followed by one trailing newline (Python's `$` also matches just
before a final newline), with X, Y, Z digit sequences: `name-1.2.3.tgz`
yields the candidate `1.2.3` (as does `name-1.2.3.tgz` with a trailing
newline), while `name-1.2.3-beta.tgz` yields no candidate. -/
theorem C9_helm_extraction :
    (∀ (name v : String), searchHelm name.data = some v →
      (∃ p, name.data = p ++ '-' :: (v.data ++ ['.', 't', 'g', 'z']) ∨
          name.data = p ++ '-' :: (v.data ++ ['.', 't', 'g', 'z', '\n'])) ∧
        ∃ x y z, v.data = x ++ '.' :: (y ++ '.' :: z) ∧
          isDigits x = true ∧ isDigits y = true ∧ isDigits z = true) ∧
    helm_item (.jobj [("name", .jstr "name-1.2.3.tgz")]) = .ok (some "1.2.3") ∧
    helm_item (.jobj [("name", .jstr "name-1.2.3.tgz\n")]) = .ok (some "1.2.3") ∧
    helm_item (.jobj [("name", .jstr "name-1.2.3-beta.tgz")]) = .ok none := by
  refine ⟨?_, by decide, by decide, by decide⟩
  intro name v h
  exact searchHelm_sound name.data v h

/-- C9 witness: the anchoring clause applied at a concrete filename. -/
theorem C9_helm_extraction_witness :
    (∃ p, ("chart-10.20.30.tgz").data =
        p ++ '-' :: (("10.20.30").data ++ ['.', 't', 'g', 'z']) ∨
        ("chart-10.20.30.tgz").data =
          p ++ '-' :: (("10.20.30").data ++ ['.', 't', 'g', 'z', '\n'])) ∧
      ∃ x y z, ("10.20.30").data = x ++ '.' :: (y ++ '.' :: z) ∧
        isDigits x = true ∧ isDigits y = true ∧ isDigits z = true :=
  C9_helm_extraction.1 "chart-10.20.30.tgz" "10.20.30" (by decide)

/-- C10, counterexample: with a registry whose tier-1 listing is
`["1.2.3" (most recent), "1.2.4"]` and application seed `1.2.4`, the
resolver succeeds with `1.2.4` — a value that equals both the configured
seed and a version present in the registry response, refuting "no resolved
value can ever exactly equal a seed or an existing registry version". -/
theorem C10_counterexample :
    (compute_next_application_version "X" [⟨"X", some "1.2.4", []⟩] "https://j"
        (fun _ => .ok (.jobj [("versions",
          .jarr [.jobj [("version", .jstr "1.2.3")],
            .jobj [("version", .jstr "1.2.4")]])]))).1 = .ok "1.2.4" ∧
    find_app_entry [⟨"X", some "1.2.4", []⟩] "X" = some ⟨"X", some "1.2.4", []⟩ ∧
    extract_versions (.jobj [("versions",
        .jarr [.jobj [("version", .jstr "1.2.3")],
          .jobj [("version", .jstr "1.2.4")]])]) = .ok ["1.2.3", "1.2.4"] := by
  refine ⟨by decide, by decide, by decide⟩

/-- C10, amended: every successfully resolved version — application or
package tag — is `bumpPatch` of some parseable version, hence parses as
`X.Y.Z` with patch at least 1 and differs from the exact value it was bumped
from (though it may coincide with a seed or another registry version). -/
theorem C10_bump_provenance :
    (∀ (ak : String) (vm : List AppEntry) (u : String) (reg : String → RegResult)
        (v : String) (tr : List String),
      compute_next_application_version ak vm u reg = (.ok v, tr) →
      ∃ x a b c, parse_semver x = some (a, b, c) ∧ bump_patch x = some v ∧
        parse_semver v = some (a, b, c + 1) ∧ 1 ≤ c + 1 ∧ v ≠ x) ∧
    (∀ (ak pn : String) (vm : List AppEntry) (u : String) (pk : Option String)
        (stage : String) (reg : Request → RegResult) (v : String) (tr : List Request),
      compute_next_package_tag ak pn vm u pk stage reg = (.ok v, tr) →
      ∃ x a b c, parse_semver x = some (a, b, c) ∧ bump_patch x = some v ∧
        parse_semver v = some (a, b, c + 1) ∧ 1 ≤ c + 1 ∧ v ≠ x) := by
  constructor
  · intro ak vm u reg v tr h
    obtain ⟨x, a, b, c, hx, hb, hv⟩ := app_success_bump h
    refine ⟨x, a, b, c, hx, hb, hv, Nat.succ_le_succ (Nat.zero_le c), ?_⟩
    intro he
    rw [he, hx] at hv
    injection hv with h2
    obtain ⟨_, h3⟩ := Prod.mk.inj h2
    obtain ⟨_, h4⟩ := Prod.mk.inj h3
    omega
  · intro ak pn vm u pk stage reg v tr h
    obtain ⟨x, a, b, c, hx, hb, hv⟩ := pkg_success_bump h
    refine ⟨x, a, b, c, hx, hb, hv, Nat.succ_le_succ (Nat.zero_le c), ?_⟩
    intro he
    rw [he, hx] at hv
    injection hv with h2
    obtain ⟨_, h3⟩ := Prod.mk.inj h2
    obtain ⟨_, h4⟩ := Prod.mk.inj h3
    omega

/-- C10 witness: the application clause applied at a concrete run (seed
fallback producing `1.0.1`). -/
theorem C10_bump_provenance_witness :
    ∃ x a b c, parse_semver x = some (a, b, c) ∧ bump_patch x = some "1.0.1" ∧
      parse_semver "1.0.1" = some (a, b, c + 1) ∧ 1 ≤ c + 1 ∧ "1.0.1" ≠ x :=
  C10_bump_provenance.1 "X" [⟨"X", some "1.0.0", []⟩] "https://j"
    (fun _ => .ok (.jobj [])) "1.0.1"
    [tier1_url "https://j" "X", tier2_url "https://j" "X"] (by decide)

end BookVerse
